import Mathlib

/-!
# libfreenect2 (protonect): device lifecycle and device manager

A shallow embedding of `examples/protonect/src/libfreenect2.cpp` and of the
member `process` of `examples/protonect/src/turbo_jpeg_rgb_packet_processor.cpp`.

* `Freenect2DeviceImpl` is the record of the fields of the C++ class of the same
  name; its member functions become functions that return the new record together
  with the list of external calls they made (`Event`), in program order.
* The classes whose source is not part of the translation unit (`UsbControl`,
  `CommandTransaction`, the transfer pools, the packet processors, libusb) are the
  environment: a call to them is an `Event`, and where the code looks at what
  they return the answer is an argument (`OpenEnv`, `OpenDeviceEnv`).
* Writes to `std::cout` are not recorded, except the two diagnostic messages of
  `Freenect2Impl` about its list of devices (`Message`).
-/

namespace libfreenect2

/-! ## Data model -/

/-- Lifecycle state of a device: the enum `Freenect2DeviceImpl::State`. -/
inductive State where
  | Created
  | Open
  | Streaming
  | Closed
  deriving DecidableEq, Repr

namespace UsbControl

/-- Modelled from the spec: the enum `UsbControl::State` of `protocol/usb_control.h`
(not among the sources), the two values passed to the interface switches. -/
inductive State where
  | Enabled
  | Disabled
  deriving DecidableEq, Repr

/-- Modelled from the spec: the enum `UsbControl::ResultCode` of
`protocol/usb_control.h` (not among the sources); the code only compares a
result with `Success`. -/
inductive ResultCode where
  | Success
  | Error
  deriving DecidableEq, Repr

end UsbControl

/-- The command classes of `protocol/command.h` that `start()` and `stop()`
instantiate, by class name without the `Command` suffix. -/
inductive Command where
  | ReadFirmwareVersions
  | ReadData0x14
  | ReadSerialNumber
  | ReadDepthCameraParameters
  | ReadP0Tables
  | ReadRgbCameraParameters
  | ReadStatus0x090000
  | InitStreams
  | SetStreamEnabled
  | Unknown0x0A
  | SetStreamDisabled
  deriving DecidableEq, Repr

/-- The two transfer pools of a device: `rgb_transfer_pool_` (bulk, endpoint 0x83)
and `ir_transfer_pool_` (isochronous, endpoint 0x84); also used to name the
packet processor of the same stream. -/
inductive Pool where
  | Rgb
  | Ir
  deriving DecidableEq, Repr

/-- A `libusb_device`: `addr` is the identity of the pointer, the other fields
are what libusb reports for it (bus number, port number, device descriptor). -/
structure UsbDevice where
  addr : Nat
  bus_number : Nat
  port_number : Nat
  idVendor : Nat
  idProduct : Nat
  deriving DecidableEq, Repr

/-- One external call made by a device, with its arguments. -/
inductive Event where
  | setCallback (p : Pool)
  | load11To16LutFromFile
  | loadXTableFromFile
  | loadZTableFromFile
  | setConfiguration
  | claimInterfaces
  | releaseInterfaces
  | setIsochronousDelay
  | setIrInterfaceState (s : UsbControl.State)
  | enablePowerStates
  | setVideoTransferFunctionState (s : UsbControl.State)
  | libusb_get_max_iso_packet_size (endpoint : Nat)
  | execute (c : Command) (seq : Int)
  | loadP0TablesFromCommandResponse
  | allocateBulk (num_transfers : Nat) (transfer_size : Nat)
  | allocateIso (num_transfers : Nat) (num_packets : Nat) (packet_size : Nat)
  | enableSubmission (p : Pool)
  | disableSubmission (p : Pool)
  | submit (p : Pool) (num_transfers : Nat)
  | cancel (p : Pool)
  | deallocate (p : Pool)
  | sleep_for (seconds : Nat)
  | setFrameListener (p : Pool) (listener : Option Nat)
  | libusb_close (handle : Option Nat)
  deriving DecidableEq, Repr

/-- The fields of `Freenect2DeviceImpl`. Pointers are `Option`s (`none` is the
null pointer); a frame listener is the `listener_` of the packet processor of
that stream. -/
structure Freenect2DeviceImpl where
  state_ : State
  has_usb_interfaces_ : Bool
  usb_device_ : Option UsbDevice
  usb_device_handle_ : Option Nat
  command_seq_ : Int
  rgb_listener_ : Option Nat
  depth_listener_ : Option Nat
  deriving DecidableEq, Repr

/-- What the control channel and libusb answer to the calls of one `open()`; each
of them is called at most once there. -/
structure OpenEnv where
  setConfiguration : UsbControl.ResultCode
  claimInterfaces : UsbControl.ResultCode
  setIsochronousDelay : UsbControl.ResultCode
  setIrInterfaceState : UsbControl.ResultCode
  enablePowerStates : UsbControl.ResultCode
  setVideoTransferFunctionState : UsbControl.ResultCode
  max_iso_packet_size : Int
  deriving DecidableEq, Repr

/-! ## Machine integers -/

/-- The value an `int` (32 bit, two's complement) holds after being assigned `x`. -/
def wrapInt (x : Int) : Int :=
  (x + 2147483648) % 4294967296 - 2147483648

/-- Conversion of an `int` to `size_t` (64 bit). -/
def toSizeT (x : Int) : Nat :=
  (x % 18446744073709551616).toNat

/-- Conversion of a bus or port number to `unsigned char`. -/
def toUChar (x : Nat) : Nat :=
  x % 256

/-! ## Freenect2DeviceImpl -/

/-- Events of the constructor body. -/
def Freenect2DeviceImpl.ctorEvents : List Event :=
  [Event.setCallback Pool.Rgb, Event.setCallback Pool.Ir,
   Event.load11To16LutFromFile, Event.loadXTableFromFile, Event.loadZTableFromFile]

/-- The constructor `Freenect2DeviceImpl(context, usb_device, usb_device_handle)`:
the member initialiser list. -/
def Freenect2DeviceImpl.new (usb_device : Option UsbDevice) (usb_device_handle : Option Nat) :
    Freenect2DeviceImpl :=
  { state_ := State.Created
    has_usb_interfaces_ := false
    usb_device_ := usb_device
    usb_device_handle_ := usb_device_handle
    command_seq_ := 0
    rgb_listener_ := none
    depth_listener_ := none }

/-- The member `nextCommandSeq`: `return command_seq_++;`. The counter is an `int`;
incrementing it at its largest value is an overflow, modelled by the two's
complement wrap of the machine (`wrapInt`). -/
def Freenect2DeviceImpl.nextCommandSeq (d : Freenect2DeviceImpl) : Int × Freenect2DeviceImpl :=
  (d.command_seq_, { d with command_seq_ := wrapInt (d.command_seq_ + 1) })

/-- The member `isSameUsbDevice(other)`. -/
def Freenect2DeviceImpl.isSameUsbDevice (d : Freenect2DeviceImpl) (other : UsbDevice) : Bool :=
  if d.state_ ≠ State.Closed then
    match d.usb_device_ with
    | some dev =>
      (toUChar dev.bus_number == toUChar other.bus_number)
        && (toUChar dev.port_number == toUChar other.port_number)
    | none => false
  else false

/-- The member `setColorFrameListener`. -/
def Freenect2DeviceImpl.setColorFrameListener (l : Option Nat) (d : Freenect2DeviceImpl) :
    Freenect2DeviceImpl × List Event :=
  ({ d with rgb_listener_ := l }, [Event.setFrameListener Pool.Rgb l])

/-- The member `setIrAndDepthFrameListener`. -/
def Freenect2DeviceImpl.setIrAndDepthFrameListener (l : Option Nat) (d : Freenect2DeviceImpl) :
    Freenect2DeviceImpl × List Event :=
  ({ d with depth_listener_ := l }, [Event.setFrameListener Pool.Ir l])

/-- The member `open()`: the returned `Bool` is its result. -/
def Freenect2DeviceImpl.open (env : OpenEnv) (d : Freenect2DeviceImpl) :
    Bool × Freenect2DeviceImpl × List Event :=
  if d.state_ ≠ State.Created then (false, d, [])
  else if env.setConfiguration ≠ UsbControl.ResultCode.Success then
    (false, d, [Event.setConfiguration])
  else
    let t1 : List Event :=
      if d.has_usb_interfaces_ then [Event.setConfiguration]
      else [Event.setConfiguration, Event.claimInterfaces]
    if !d.has_usb_interfaces_ && env.claimInterfaces != UsbControl.ResultCode.Success then
      (false, d, t1)
    else
      let d1 := { d with has_usb_interfaces_ := true }
      let t2 := t1 ++ [Event.setIsochronousDelay]
      if env.setIsochronousDelay ≠ UsbControl.ResultCode.Success then (false, d1, t2)
      else
        let t3 := t2 ++ [Event.setIrInterfaceState UsbControl.State.Disabled]
        if env.setIrInterfaceState ≠ UsbControl.ResultCode.Success then (false, d1, t3)
        else
          let t4 := t3 ++ [Event.enablePowerStates]
          if env.enablePowerStates ≠ UsbControl.ResultCode.Success then (false, d1, t4)
          else
            let t5 := t4 ++ [Event.setVideoTransferFunctionState UsbControl.State.Disabled]
            if env.setVideoTransferFunctionState ≠ UsbControl.ResultCode.Success then
              (false, d1, t5)
            else
              let max_iso_packet_size := toSizeT env.max_iso_packet_size
              let t6 := t5 ++ [Event.libusb_get_max_iso_packet_size 0x84]
              if max_iso_packet_size < 0x8400 then (false, d1, t6)
              else
                (true, { d1 with state_ := State.Open },
                  t6 ++ [Event.allocateBulk 50 0x4000,
                         Event.allocateIso 80 8 max_iso_packet_size])

/-- The member `start()`. The results of the calls are not looked at by the code. -/
def Freenect2DeviceImpl.start (d : Freenect2DeviceImpl) : Freenect2DeviceImpl × List Event :=
  if d.state_ ≠ State.Open then (d, [])
  else
    let r0 := d.nextCommandSeq
    let r1 := r0.2.nextCommandSeq
    let r2 := r1.2.nextCommandSeq
    let r3 := r2.2.nextCommandSeq
    let r4 := r3.2.nextCommandSeq
    let r5 := r4.2.nextCommandSeq
    let r6 := r5.2.nextCommandSeq
    let r7 := r6.2.nextCommandSeq
    let r8 := r7.2.nextCommandSeq
    let r9 := r8.2.nextCommandSeq
    ({ r9.2 with state_ := State.Streaming },
      [Event.setVideoTransferFunctionState UsbControl.State.Enabled,
       Event.execute Command.ReadFirmwareVersions r0.1,
       Event.execute Command.ReadData0x14 r1.1,
       Event.execute Command.ReadSerialNumber r2.1,
       Event.execute Command.ReadDepthCameraParameters r3.1,
       Event.execute Command.ReadP0Tables r4.1,
       Event.loadP0TablesFromCommandResponse,
       Event.execute Command.ReadRgbCameraParameters r5.1,
       Event.execute Command.ReadStatus0x090000 r6.1,
       Event.execute Command.InitStreams r7.1,
       Event.setIrInterfaceState UsbControl.State.Enabled,
       Event.execute Command.ReadStatus0x090000 r8.1,
       Event.execute Command.SetStreamEnabled r9.1,
       Event.enableSubmission Pool.Rgb,
       Event.enableSubmission Pool.Ir,
       Event.submit Pool.Rgb 20,
       Event.submit Pool.Ir 60])

/-- The member `stop()`. -/
def Freenect2DeviceImpl.stop (d : Freenect2DeviceImpl) : Freenect2DeviceImpl × List Event :=
  if d.state_ ≠ State.Streaming then (d, [])
  else
    let r0 := d.nextCommandSeq
    let r1 := r0.2.nextCommandSeq
    ({ r1.2 with state_ := State.Open },
      [Event.disableSubmission Pool.Rgb,
       Event.disableSubmission Pool.Ir,
       Event.cancel Pool.Rgb,
       Event.cancel Pool.Ir,
       Event.sleep_for 2,
       Event.setIrInterfaceState UsbControl.State.Disabled,
       Event.execute Command.Unknown0x0A r0.1,
       Event.execute Command.SetStreamDisabled r1.1,
       Event.setVideoTransferFunctionState UsbControl.State.Disabled])

/-- The member `close()`. -/
def Freenect2DeviceImpl.close (d : Freenect2DeviceImpl) : Freenect2DeviceImpl × List Event :=
  if d.state_ = State.Closed then (d, [])
  else
    let s := if d.state_ = State.Streaming then d.stop else (d, [])
    let d1 := { s.1 with rgb_listener_ := none, depth_listener_ := none }
    let t1 := s.2 ++ [Event.setFrameListener Pool.Rgb none, Event.setFrameListener Pool.Ir none]
    let t2 := if d1.has_usb_interfaces_ then t1 ++ [Event.releaseInterfaces] else t1
    ({ d1 with
        has_usb_interfaces_ := false
        usb_device_handle_ := none
        usb_device_ := none
        state_ := State.Closed },
      t2 ++ [Event.deallocate Pool.Rgb, Event.deallocate Pool.Ir,
             Event.libusb_close d1.usb_device_handle_])

/-! ## Freenect2Impl and Freenect2 -/

/-- The two diagnostic messages `Freenect2Impl` prints about its list of devices:
"tried to remove device, which is not in the internal device list!" in
`removeDevice`, and "after deleting all devices the internal device list should
be empty!" in `clearDevices`. -/
inductive Message where
  | removeDevice_not_in_list
  | clearDevices_list_not_empty
  deriving DecidableEq, Repr

/-- One external call made by the process: the libusb calls of the device
manager, the construction and destruction of device objects, the diagnostic
messages of the device manager, and the calls made by the device at address `p`. -/
inductive SysEvent where
  | libusb_get_device_list
  | libusb_unref_device (dev : UsbDevice)
  | libusb_free_device_list
  | libusb_open (dev : UsbDevice)
  | construct (p : Nat)
  | destroy (p : Nat)
  | message (m : Message)
  | device (p : Nat) (e : Event)
  deriving DecidableEq, Repr

/-- The fields of `Freenect2Impl` the device manager works on; `devices_` (the
registry) holds addresses of device objects. -/
structure Freenect2Impl where
  has_device_enumeration_ : Bool
  enumerated_devices_ : List UsbDevice
  devices_ : List Nat
  deriving DecidableEq, Repr

/-- The process state: the `Freenect2Impl` behind a `Freenect2`, and the device
objects allocated so far. The address of an object is its position in `heap`; a
deleted object leaves `none` behind, so an address is never handed out twice. -/
structure World where
  impl_ : Freenect2Impl
  heap : List (Option Freenect2DeviceImpl)
  deriving DecidableEq, Repr

/-- What the environment answers during one `openDevice(idx)`: the devices
`libusb_get_device_list` reports (asked only when there is no enumeration yet),
the handle `libusb_open` stores (its result code is not checked by the code), and
the answers to the new device's `open()`. -/
structure OpenDeviceEnv where
  bus : List UsbDevice
  dev_handle : Option Nat
  open_env : OpenEnv
  deriving DecidableEq, Repr

/-- The constant `Freenect2Device::VendorId`. -/
def Freenect2Device.VendorId : Nat := 0x045E

/-- The constant `Freenect2Device::ProductId`. -/
def Freenect2Device.ProductId : Nat := 0x02C4

/-- The test of `Freenect2Impl::enumerateDevices` on a device descriptor. -/
def isKinect (dev : UsbDevice) : Bool :=
  dev.idVendor == Freenect2Device.VendorId && dev.idProduct == Freenect2Device.ProductId

/-- The state the constructor of `Freenect2Impl` leaves. -/
def Freenect2Impl.new : Freenect2Impl :=
  { has_device_enumeration_ := false, enumerated_devices_ := [], devices_ := [] }

/-- The member `addDevice`: `push_back`. -/
def Freenect2Impl.addDevice (device : Nat) (m : Freenect2Impl) : Freenect2Impl :=
  { m with devices_ := m.devices_ ++ [device] }

/-- The member `removeDevice`: `std::find`, then `erase` of the position found,
which drops the first occurrence; when `std::find` returns `end()` the list is
left as it is and the message is printed. -/
def Freenect2Impl.removeDevice (device : Nat) (m : Freenect2Impl) :
    Freenect2Impl × List SysEvent :=
  if device ∈ m.devices_ then ({ m with devices_ := m.devices_.erase device }, [])
  else (m, [SysEvent.message Message.removeDevice_not_in_list])

/-- The object a device pointer refers to; `none` for a pointer to no live object. -/
def derefDevice (heap : List (Option Freenect2DeviceImpl)) (p : Nat) :
    Option Freenect2DeviceImpl :=
  match heap[p]? with
  | some (some d) => some d
  | _ => none

/-- The loop of `Freenect2Impl::tryGetDevice` over the registry: the result is
`some (some p)` when `true` is returned with `*device = p`, `some none` when
`false` is returned, and `none` when a registered pointer refers to no live
object (the call through it is undefined). -/
def tryGetDeviceLoop (heap : List (Option Freenect2DeviceImpl)) (usb_device : UsbDevice) :
    List Nat → Option (Option Nat)
  | [] => some none
  | p :: rest =>
    match derefDevice heap p with
    | none => none
    | some d =>
      if d.isSameUsbDevice usb_device then some (some p)
      else tryGetDeviceLoop heap usb_device rest

/-- The member `tryGetDevice`. -/
def Freenect2Impl.tryGetDevice (m : Freenect2Impl) (heap : List (Option Freenect2DeviceImpl))
    (usb_device : UsbDevice) : Option (Option Nat) :=
  tryGetDeviceLoop heap usb_device m.devices_

/-- The member `clearDeviceEnumeration`. -/
def Freenect2Impl.clearDeviceEnumeration (m : Freenect2Impl) : Freenect2Impl × List SysEvent :=
  ({ m with enumerated_devices_ := [], has_device_enumeration_ := false },
    m.enumerated_devices_.map SysEvent.libusb_unref_device)

/-- The member `Freenect2Impl::enumerateDevices`, where `bus` is the list
`libusb_get_device_list` returns (with the descriptor of each device): matching
devices are pushed to the back of `enumerated_devices_`, the others are
unreferenced. A failing `libusb_get_device_list` is not modelled. -/
def Freenect2Impl.enumerateDevices (bus : List UsbDevice) (m : Freenect2Impl) :
    Freenect2Impl × List SysEvent :=
  ({ m with
      enumerated_devices_ := m.enumerated_devices_ ++ bus.filter isKinect
      has_device_enumeration_ := true },
    [SysEvent.libusb_get_device_list]
      ++ (bus.filter (fun dev => !isKinect dev)).map SysEvent.libusb_unref_device
      ++ [SysEvent.libusb_free_device_list])

/-- The member `getNumDevices`: enumerates first when there is no enumeration. The
conversion of `size()` to `int` is taken to be exact: the list holds devices of
one USB bus enumeration, far fewer than 2^31. -/
def Freenect2Impl.getNumDevices (bus : List UsbDevice) (m : Freenect2Impl) :
    Int × Freenect2Impl × List SysEvent :=
  if !m.has_device_enumeration_ then
    (((m.enumerateDevices bus).1.enumerated_devices_.length : Int),
      (m.enumerateDevices bus).1, (m.enumerateDevices bus).2)
  else ((m.enumerated_devices_.length : Int), m, [])

/-- The state after `Freenect2::Freenect2`. -/
def World.init : World :=
  { impl_ := Freenect2Impl.new, heap := [] }

/-- The member `Freenect2::enumerateDevices`: result, new state, external calls. -/
def Freenect2.enumerateDevices (bus : List UsbDevice) (w : World) :
    Int × World × List SysEvent :=
  let c := w.impl_.clearDeviceEnumeration
  let r := c.1.getNumDevices bus
  (r.1, { w with impl_ := r.2.1 }, c.2 ++ r.2.2)

/-- A member function `f` called through the device pointer `p`; `none` when `p`
refers to no live object. -/
def World.callDevice (f : Freenect2DeviceImpl → Freenect2DeviceImpl × List Event) (p : Nat)
    (w : World) : Option (World × List SysEvent) :=
  match derefDevice w.heap p with
  | none => none
  | some d =>
    some ({ w with heap := w.heap.set p (some (f d).1) }, (f d).2.map (SysEvent.device p))

/-- The expression `delete device`: the destructor `~Freenect2DeviceImpl` runs
`close()` and then `context_->removeDevice(this)`, and the object is gone. -/
def World.deleteDevice (p : Nat) (w : World) : Option (World × List SysEvent) :=
  match derefDevice w.heap p with
  | none => none
  | some d =>
    some ({ impl_ := (w.impl_.removeDevice p).1, heap := w.heap.set p none },
      d.close.2.map (SysEvent.device p) ++ (w.impl_.removeDevice p).2 ++ [SysEvent.destroy p])

/-- The member `Freenect2::openDevice(int idx)`. The outer `Option` is `none` when
the call has no defined behaviour (a read of `enumerated_devices_` outside its
bounds, a call through a dangling registry entry); otherwise the first component
is the returned pointer (`none` for the null pointer). -/
def Freenect2.openDevice (idx : Int) (env : OpenDeviceEnv) (w : World) :
    Option (Option Nat × World × List SysEvent) :=
  let r := w.impl_.getNumDevices env.bus
  let num_devices := r.1
  let impl1 := r.2.1
  if idx < num_devices then
    match impl1.enumerated_devices_[toSizeT idx]? with
    | none => none
    | some dev =>
      match impl1.tryGetDevice w.heap dev with
      | none => none
      | some (some device) => some (some device, { w with impl_ := impl1 }, r.2.2)
      | some none =>
        let device := w.heap.length
        let o := (Freenect2DeviceImpl.new (some dev) env.dev_handle).open env.open_env
        let w1 : World :=
          { impl_ := impl1.addDevice device, heap := w.heap ++ [some o.2.1] }
        let t1 := r.2.2 ++ [SysEvent.libusb_open dev, SysEvent.construct device]
          ++ (Freenect2DeviceImpl.ctorEvents ++ o.2.2).map (SysEvent.device device)
        if o.1 then some (some device, w1, t1)
        else
          match w1.deleteDevice device with
          | none => none
          | some x => some (none, x.1, t1 ++ x.2)
  else some (none, { w with impl_ := impl1 }, r.2.2)

/-- The member `Freenect2::openDefaultDevice`. -/
def Freenect2.openDefaultDevice (env : OpenDeviceEnv) (w : World) :
    Option (Option Nat × World × List SysEvent) :=
  Freenect2.openDevice 0 env w

/-- The external calls of an enumeration: the libusb device list calls. Opening
a USB handle, constructing or destroying a device object and every call made by
a device are not among them. -/
def SysEvent.isEnumeration : SysEvent → Bool
  | SysEvent.libusb_get_device_list => true
  | SysEvent.libusb_unref_device _ => true
  | SysEvent.libusb_free_device_list => true
  | _ => false

/-- The environment of an `openDevice` call that sees the devices `bus`, gets
handle 7 from `libusb_open` and the answers `e` to the device's `open()`. -/
def busEnv (bus : List UsbDevice) (e : OpenEnv) : OpenDeviceEnv :=
  { bus := bus, dev_handle := some 7, open_env := e }

/-- A call of the public interface: on the device manager, or through a device
pointer `p` obtained from it (`destroy` is `delete p`). -/
inductive Call where
  | enumerateDevices (bus : List UsbDevice)
  | openDevice (idx : Int) (env : OpenDeviceEnv)
  | openDefaultDevice (env : OpenDeviceEnv)
  | setColorFrameListener (p : Nat) (l : Option Nat)
  | setIrAndDepthFrameListener (p : Nat) (l : Option Nat)
  | start (p : Nat)
  | stop (p : Nat)
  | close (p : Nat)
  | destroy (p : Nat)
  deriving DecidableEq, Repr

/-- Effect of one public call; `none` when the call has no defined behaviour. -/
def World.step (w : World) : Call → Option (World × List SysEvent)
  | Call.enumerateDevices bus =>
    some ((Freenect2.enumerateDevices bus w).2.1, (Freenect2.enumerateDevices bus w).2.2)
  | Call.openDevice idx env => (Freenect2.openDevice idx env w).map (fun r => r.2)
  | Call.openDefaultDevice env => (Freenect2.openDefaultDevice env w).map (fun r => r.2)
  | Call.setColorFrameListener p l =>
    w.callDevice (Freenect2DeviceImpl.setColorFrameListener l) p
  | Call.setIrAndDepthFrameListener p l =>
    w.callDevice (Freenect2DeviceImpl.setIrAndDepthFrameListener l) p
  | Call.start p => w.callDevice Freenect2DeviceImpl.start p
  | Call.stop p => w.callDevice Freenect2DeviceImpl.stop p
  | Call.close p => w.callDevice Freenect2DeviceImpl.close p
  | Call.destroy p => w.deleteDevice p

/-- The states the process can be in between public calls. -/
inductive Reachable : World → Prop where
  | init : Reachable World.init
  | step (w : World) (c : Call) (w1 : World) (t : List SysEvent) :
      Reachable w → w.step c = some (w1, t) → Reachable w1

/-- The invariant of the process states: the registry has no duplicates, every
registered pointer refers to a live device object and every live device object
is registered, no live device object is in state `Created`, and no USB device is
recognised as their own (`isSameUsbDevice`) by two different registered devices. -/
structure World.Inv (w : World) : Prop where
  nodup : w.impl_.devices_.Nodup
  live : ∀ p ∈ w.impl_.devices_, ∃ d, derefDevice w.heap p = some d
  registered : ∀ p d, derefDevice w.heap p = some d → p ∈ w.impl_.devices_
  opened : ∀ p d, derefDevice w.heap p = some d → d.state_ ≠ State.Created
  unique : ∀ p ∈ w.impl_.devices_, ∀ q ∈ w.impl_.devices_, p ≠ q →
    ∀ dp dq, derefDevice w.heap p = some dp → derefDevice w.heap q = some dq →
    ∀ u, dp.isSameUsbDevice u = true → dq.isSameUsbDevice u = false

/-- A member function that neither makes a device recognise a USB device it did
not recognise before nor puts it back into state `Created`. -/
def Benign (f : Freenect2DeviceImpl → Freenect2DeviceImpl × List Event) : Prop :=
  ∀ d : Freenect2DeviceImpl,
    (∀ u, (f d).1.isSameUsbDevice u = true → d.isSameUsbDevice u = true) ∧
    (d.state_ ≠ State.Created → (f d).1.state_ ≠ State.Created)

/-- Whether an event of a device is the `libusb_close` of its handle. -/
def Event.isLibusbClose : Event → Bool
  | Event.libusb_close _ => true
  | _ => false

/-- Whether an external call is a `libusb_close` made by the device at address `p`. -/
def SysEvent.isCloseOf (p : Nat) : SysEvent → Bool
  | SysEvent.device q e => q == p && e.isLibusbClose
  | _ => false

/-- Effect of a sequence of public calls. -/
def World.run : List Call → World → Option (World × List SysEvent)
  | [], w => some (w, [])
  | c :: cs, w =>
    match w.step c with
    | none => none
    | some x =>
      match World.run cs x.1 with
      | none => none
      | some y => some (y.1, x.2 ++ y.2)

/-- The state after a sequence of public calls, and `w` itself when the sequence
has no defined behaviour. -/
def World.runD (cs : List Call) (w : World) : World :=
  match World.run cs w with
  | some x => x.1
  | none => w

/-- A call on one device, as the lifecycle of a single `Freenect2DeviceImpl` sees
it; `open` carries the answers of the environment. -/
inductive DeviceCall where
  | open (env : OpenEnv)
  | start
  | stop
  | close
  deriving DecidableEq, Repr

/-- Effect of one call on a device. -/
def applyCall (c : DeviceCall) (d : Freenect2DeviceImpl) :
    Freenect2DeviceImpl × List Event :=
  match c with
  | DeviceCall.open env => ((d.open env).2.1, (d.open env).2.2)
  | DeviceCall.start => d.start
  | DeviceCall.stop => d.stop
  | DeviceCall.close => d.close

/-- Effect of a sequence of calls on a device: the final record and every
external call made, in order. -/
def runCalls : List DeviceCall → Freenect2DeviceImpl → Freenect2DeviceImpl × List Event
  | [], d => (d, [])
  | c :: cs, d =>
    ((runCalls cs (applyCall c d).1).1, (applyCall c d).2 ++ (runCalls cs (applyCall c d).1).2)

/-- Sequence numbers of the command transactions of a trace, in the order in
which they were issued. -/
def commandSeqs : List Event → List Int
  | [] => []
  | Event.execute _ seq :: t => seq :: commandSeqs t
  | _ :: t => commandSeqs t

/-- The sequence numbers `n` consecutive calls of `nextCommandSeq` return when the
counter holds `wrapInt k`. -/
def seqsFrom (k : Int) (n : Nat) : List Int :=
  (List.range n).map (fun (i : Nat) => wrapInt (k + (i : Int)))

/-- The call sequence made of `n` rounds of `start()` then `stop()`. -/
def startStopCycles : Nat → List DeviceCall
  | 0 => []
  | n + 1 => DeviceCall.start :: DeviceCall.stop :: startStopCycles n

/-- An environment in which every step of `open()` succeeds. -/
def okOpenEnv : OpenEnv :=
  { setConfiguration := UsbControl.ResultCode.Success
    claimInterfaces := UsbControl.ResultCode.Success
    setIsochronousDelay := UsbControl.ResultCode.Success
    setIrInterfaceState := UsbControl.ResultCode.Success
    enablePowerStates := UsbControl.ResultCode.Success
    setVideoTransferFunctionState := UsbControl.ResultCode.Success
    max_iso_packet_size := 0x8400 }

/-- An environment in which the first step of `open()` fails. -/
def failOpenEnv : OpenEnv :=
  { okOpenEnv with setConfiguration := UsbControl.ResultCode.Error }

/-- A Kinect v2 as libusb reports it, on bus 1, port 2. -/
def kinect : UsbDevice :=
  { addr := 1, bus_number := 1, port_number := 2, idVendor := 0x045E, idProduct := 0x02C4 }

/-- A second Kinect v2, on bus 1, port 4. -/
def kinect2 : UsbDevice :=
  { addr := 3, bus_number := 1, port_number := 4, idVendor := 0x045E, idProduct := 0x02C4 }

/-- Some other USB device. -/
def otherUsb : UsbDevice :=
  { addr := 2, bus_number := 1, port_number := 3, idVendor := 0x1D6B, idProduct := 0x0002 }

/-! ## Traces of start() and stop() -/

/-- The same event without the sequence number of a command transaction. -/
def Event.forgetSeq : Event → Event
  | Event.execute c _ => Event.execute c 0
  | e => e

/-- Whether an event is a call to the device: a control-channel call, a command
transaction or a transfer-pool operation (and not a call to a packet processor
or a wait of the calling thread). -/
def Event.isDeviceOperation : Event → Bool
  | Event.setConfiguration => true
  | Event.claimInterfaces => true
  | Event.releaseInterfaces => true
  | Event.setIsochronousDelay => true
  | Event.setIrInterfaceState _ => true
  | Event.enablePowerStates => true
  | Event.setVideoTransferFunctionState _ => true
  | Event.execute _ _ => true
  | Event.allocateBulk _ _ => true
  | Event.allocateIso _ _ _ => true
  | Event.enableSubmission _ => true
  | Event.disableSubmission _ => true
  | Event.submit _ _ => true
  | Event.cancel _ => true
  | Event.deallocate _ => true
  | _ => false

/-- Whether an event allocates a transfer pool. -/
def Event.isAllocate : Event → Bool
  | Event.allocateBulk _ _ => true
  | Event.allocateIso _ _ _ => true
  | _ => false

/-- The external calls of an `open()` in which every step succeeds, for a device
whose interfaces are claimed (`claimed = true`) or not, and the packet size
`size` read for endpoint 0x84: the steps in program order. -/
def openSteps (claimed : Bool) (size : Nat) : List Event :=
  [Event.setConfiguration] ++ (if claimed then [] else [Event.claimInterfaces])
    ++ [Event.setIsochronousDelay,
        Event.setIrInterfaceState UsbControl.State.Disabled,
        Event.enablePowerStates,
        Event.setVideoTransferFunctionState UsbControl.State.Disabled,
        Event.libusb_get_max_iso_packet_size 0x84,
        Event.allocateBulk 50 0x4000,
        Event.allocateIso 80 8 size]

/-- An environment in which every control-channel step of `open()` succeeds and
`libusb_get_max_iso_packet_size` reports the error `LIBUSB_ERROR_NOT_FOUND` (-5). -/
def errorSizeOpenEnv : OpenEnv :=
  { okOpenEnv with max_iso_packet_size := -5 }

/-- An environment in which `claimInterfaces` succeeds and the next step of
`open()`, `setIsochronousDelay`, fails. -/
def lateFailOpenEnv : OpenEnv :=
  { okOpenEnv with setIsochronousDelay := UsbControl.ResultCode.Error }

/-- The checks of `open()` in program order, each with the external call it
makes and whether it passes: the control-channel steps pass when they return
`Success` (`claimInterfaces` is only there when the interfaces are not claimed
yet), the packet size of endpoint 0x84 passes when, as a `size_t`, it is not
below 0x8400. -/
def openChecks (env : OpenEnv) (claimed : Bool) : List (Event × Bool) :=
  [(Event.setConfiguration, decide (env.setConfiguration = UsbControl.ResultCode.Success))]
    ++ (if claimed then []
        else [(Event.claimInterfaces,
                decide (env.claimInterfaces = UsbControl.ResultCode.Success))])
    ++ [(Event.setIsochronousDelay,
          decide (env.setIsochronousDelay = UsbControl.ResultCode.Success)),
        (Event.setIrInterfaceState UsbControl.State.Disabled,
          decide (env.setIrInterfaceState = UsbControl.ResultCode.Success)),
        (Event.enablePowerStates,
          decide (env.enablePowerStates = UsbControl.ResultCode.Success)),
        (Event.setVideoTransferFunctionState UsbControl.State.Disabled,
          decide (env.setVideoTransferFunctionState = UsbControl.ResultCode.Success)),
        (Event.libusb_get_max_iso_packet_size 0x84,
          decide (0x8400 ≤ toSizeT env.max_iso_packet_size))]

/-- The calls made when a list of checks is run until the first one fails: every
call up to and including the first failing one, and none after it. -/
def upToFirstFailure : List (Event × Bool) → List Event
  | [] => []
  | (e, ok) :: rest => if ok then e :: upToFirstFailure rest else [e]

/-! ## Exceptions -/

/-- The loop of `Freenect2Impl::clearDevices` over the copy of the registry:
`delete (*it)` for every entry; `none` when an entry refers to no live object. -/
def clearDevicesLoop : List Nat → World → Option (World × List SysEvent)
  | [], w => some (w, [])
  | p :: rest, w =>
    match w.deleteDevice p with
    | none => none
    | some x =>
      match clearDevicesLoop rest x.1 with
      | none => none
      | some y => some (y.1, x.2 ++ y.2)

/-- The member `Freenect2Impl::clearDevices`: the registry is copied and every
device of the copy is deleted; afterwards the message is printed when `devices_`
is not empty. -/
def World.clearDevices (w : World) : Option (World × List SysEvent) :=
  match clearDevicesLoop w.impl_.devices_ w with
  | none => none
  | some x =>
    some (x.1, x.2 ++ (if !x.1.impl_.devices_.isEmpty
      then [SysEvent.message Message.clearDevices_list_not_empty] else []))

/-! ## TurboJpegRgbPacketProcessor -/

/-- An `RgbPacket`: the bytes `jpeg_buffer[0]` to
`jpeg_buffer[jpeg_buffer_length - 1]`. -/
structure RgbPacket where
  jpeg_buffer : List Nat
  deriving DecidableEq, Repr

/-- The field `jpeg_buffer_length` of an `RgbPacket`. -/
def RgbPacket.jpeg_buffer_length (packet : RgbPacket) : Nat :=
  packet.jpeg_buffer.length

/-- The byte (`uint8_t`) at offset `i` of a buffer; `none` when the offset is not
below the length of the buffer. -/
def readByte (buf : List Nat) (i : Nat) : Option Nat :=
  (buf[i]?).map (fun b => b % 256)

/-- How the marker loop of `process` ends: it leaves the loop, or it reads a byte
outside the buffer (the behaviour of the program is then undefined), or the
model runs out of iterations. -/
inductive WalkResult where
  | finished
  | outOfBounds
  | outOfFuel
  deriving DecidableEq, Repr

/-- The `while` loop of `TurboJpegRgbPacketProcessor::process` over the JPEG
markers, from offset `p`, for at most `fuel` iterations. Each iteration reads
`p[0]` to `p[3]`; for an APPn tag it also reads `p[4]` to `p[length - 1]`; it
stops at the tag 0xFFDA and otherwise moves on by 2 (tag 0xFFD8) or by
`length`. What it prints is not modelled. -/
def markerWalk : Nat → List Nat → Nat → WalkResult
  | 0, _, _ => WalkResult.outOfFuel
  | fuel + 1, buf, p =>
    if p < buf.length then
      match readByte buf p, readByte buf (p + 1), readByte buf (p + 2),
        readByte buf (p + 3) with
      | some b0, some b1, some s1, some s2 =>
        let tag := b1 ||| (b0 <<< 8)
        let length := 256 * s1 + s2 + 2
        if 0xFFE0 ≤ tag ∧ tag ≤ 0xFFEF ∧ 4 < length ∧ buf.length < p + length then
          WalkResult.outOfBounds
        else if tag = 0xFFDA then WalkResult.finished
        else if tag = 0xFFD8 then markerWalk fuel buf (p + 2)
        else markerWalk fuel buf (p + length)
      | _, _, _, _ => WalkResult.outOfBounds
    else WalkResult.finished

/-- An external call made by the color packet processor: the decode of a JPEG
buffer into the pixel buffer of the frame at address `dst_frame`, the offer of a
frame to the listener, and the allocation of a frame. -/
inductive RgbEvent where
  | tjDecompress2 (jpeg_buffer : List Nat) (dst_frame : Nat)
  | addNewFrame (frame : Nat)
  | newFrame (frame : Nat)
  deriving DecidableEq, Repr

/-- The state of a `TurboJpegRgbPacketProcessor`: the decompressor handle and the
frame pointer of its `impl_`, and the `listener_` of its base class.
`frames_allocated` is the number of `Frame` objects allocated so far: the next
`new Frame` returns this address, so the address of a frame that is still
allocated (also one the listener owns) is never handed out again. The timing
statistics are not modelled. -/
structure TurboJpegRgbPacketProcessor where
  decompressor : Option Nat
  frame : Nat
  listener_ : Option Nat
  frames_allocated : Nat
  deriving DecidableEq, Repr

/-- What the environment answers during one `process`: the result of
`tjDecompress2` and what the listener returns from `addNewFrame`. -/
structure ProcessEnv where
  tjDecompress2 : Int
  addNewFrame : Bool
  deriving DecidableEq, Repr

/-- The member `TurboJpegRgbPacketProcessorImpl::newFrame`. -/
def TurboJpegRgbPacketProcessor.newFrame (s : TurboJpegRgbPacketProcessor) :
    TurboJpegRgbPacketProcessor × List RgbEvent :=
  ({ s with frame := s.frames_allocated, frames_allocated := s.frames_allocated + 1 },
    [RgbEvent.newFrame s.frames_allocated])

/-- The constructor: `decompressor` is what `tjInitDecompress` returned, the first
frame is allocated, no listener is registered. -/
def TurboJpegRgbPacketProcessor.new (decompressor : Option Nat) (frames_allocated : Nat) :
    TurboJpegRgbPacketProcessor :=
  { decompressor := decompressor
    frame := frames_allocated
    listener_ := none
    frames_allocated := frames_allocated + 1 }

/-- The member `TurboJpegRgbPacketProcessor::process`; `none` when the marker loop
reads outside the buffer. -/
def TurboJpegRgbPacketProcessor.process (env : ProcessEnv) (packet : RgbPacket)
    (s : TurboJpegRgbPacketProcessor) : Option (TurboJpegRgbPacketProcessor × List RgbEvent) :=
  if s.decompressor ≠ none ∧ s.listener_ ≠ none then
    match markerWalk (packet.jpeg_buffer_length + 1) packet.jpeg_buffer 0 with
    | WalkResult.finished =>
      if env.tjDecompress2 = 0 then
        if env.addNewFrame then
          some (s.newFrame.1,
            [RgbEvent.tjDecompress2 packet.jpeg_buffer s.frame, RgbEvent.addNewFrame s.frame]
              ++ s.newFrame.2)
        else
          some (s, [RgbEvent.tjDecompress2 packet.jpeg_buffer s.frame,
            RgbEvent.addNewFrame s.frame])
      else some (s, [RgbEvent.tjDecompress2 packet.jpeg_buffer s.frame])
    | _ => none
  else some (s, [])

/-- Whether a call of the processor offers a frame to the listener. -/
def RgbEvent.isAddNewFrame : RgbEvent → Bool
  | RgbEvent.addNewFrame _ => true
  | _ => false

/-- A small JPEG stream: SOI, an APP0 segment of 6 bytes, SOS with its header. -/
def jpegPacket : RgbPacket :=
  { jpeg_buffer := [0xFF, 0xD8, 0xFF, 0xE0, 0x00, 0x04, 0x4A, 0x46, 0xFF, 0xDA, 0x00, 0x02] }

/-- A processor with a decompressor, frame 0 in flight and listener 5. -/
def readyProcessor : TurboJpegRgbPacketProcessor :=
  { TurboJpegRgbPacketProcessor.new (some 1) 0 with listener_ := some 5 }

/-! ## Transfer pools -/

/-- Modelled from the spec: the state of a Transfer Pool (the classes of
`usb/transfer_pool.h` are not among the sources). A pool owns `allocated` buffer
slots, `submitted` of them are in state Submitted (in flight with the bus), and
the submission flag says whether a completed slot is resubmitted. -/
structure TransferPool where
  allocated : Nat
  submitted : Nat
  submission_enabled : Bool
  deriving DecidableEq, Repr

/-- The two pools of a device. -/
structure Pools where
  rgb : TransferPool
  ir : TransferPool
  deriving DecidableEq, Repr

/-- The pool of a stream. -/
def Pools.get (ps : Pools) : Pool → TransferPool
  | Pool.Rgb => ps.rgb
  | Pool.Ir => ps.ir

/-- The pools with the pool of one stream replaced. -/
def Pools.set (ps : Pools) (p : Pool) (s : TransferPool) : Pools :=
  match p with
  | Pool.Rgb => { ps with rgb := s }
  | Pool.Ir => { ps with ir := s }

/-- The pools of a freshly constructed device: nothing allocated. -/
def Pools.init : Pools :=
  { rgb := { allocated := 0, submitted := 0, submission_enabled := false }
    ir := { allocated := 0, submitted := 0, submission_enabled := false } }

/-- A step of an execution of a device together with the event loop: an external
call of the device, or the delivery of the completion of one Submitted buffer of
a pool. -/
inductive PoolStep where
  | device (e : Event)
  | completion (p : Pool)
  deriving DecidableEq, Repr

/-- Modelled from the spec: the effect of one step on the pools (section 4.1):
`allocate` creates the buffers, `enableSubmission` and `disableSubmission` set
the flag, `submit(n)` arms the first `n` Idle buffers, `cancel` only requests
the cancellation (a buffer stays Submitted until its completion is delivered),
`deallocate` releases the buffers, and a delivered completion leaves the buffer
Submitted when submission is enabled (it is resubmitted) and Idle otherwise. -/
def Pools.step (ps : Pools) : PoolStep → Pools
  | PoolStep.device (Event.allocateBulk n _) =>
    ps.set Pool.Rgb { ps.rgb with allocated := n }
  | PoolStep.device (Event.allocateIso n _ _) =>
    ps.set Pool.Ir { ps.ir with allocated := n }
  | PoolStep.device (Event.enableSubmission p) =>
    ps.set p { ps.get p with submission_enabled := true }
  | PoolStep.device (Event.disableSubmission p) =>
    ps.set p { ps.get p with submission_enabled := false }
  | PoolStep.device (Event.submit p n) =>
    ps.set p { ps.get p with
      submitted := (ps.get p).submitted + min n ((ps.get p).allocated - (ps.get p).submitted) }
  | PoolStep.device (Event.deallocate p) =>
    ps.set p { ps.get p with allocated := 0 }
  | PoolStep.device _ => ps
  | PoolStep.completion p =>
    if (ps.get p).submission_enabled then ps
    else ps.set p { ps.get p with submitted := (ps.get p).submitted - 1 }

/-- For every `deallocate` of a schedule, in order: the pool it is called on and
the number of buffers of that pool that are Submitted at that moment. -/
def submittedAtDeallocate : List PoolStep → Pools → List (Pool × Nat)
  | [], _ => []
  | PoolStep.device (Event.deallocate p) :: rest, ps =>
    (p, (ps.get p).submitted)
      :: submittedAtDeallocate rest (ps.step (PoolStep.device (Event.deallocate p)))
  | s :: rest, ps => submittedAtDeallocate rest (ps.step s)

/-- The device calls of a schedule, without the completions. -/
def deviceCalls : List PoolStep → List Event
  | [] => []
  | PoolStep.device e :: rest => e :: deviceCalls rest
  | PoolStep.completion _ :: rest => deviceCalls rest

/-- The schedule in which the device makes the calls `t` and the event loop
delivers no completion at all. -/
def withoutCompletions (t : List Event) : List PoolStep :=
  t.map PoolStep.device

/-- The schedule in which the device makes the calls `t` and the event loop
delivers `n` completions of the color pool and `m` of the depth pool while the
device sleeps after the cancellation. -/
def completionsDuringSleep (n m : Nat) (t : List Event) : List PoolStep :=
  t.flatMap (fun e =>
    if e = Event.sleep_for 2 then
      PoolStep.device e :: (List.replicate n (PoolStep.completion Pool.Rgb)
        ++ List.replicate m (PoolStep.completion Pool.Ir))
    else [PoolStep.device e])

/-! ## The read of the candidate list -/

/-- The index at which `Freenect2::openDevice(int idx)` reads
`enumerated_devices_` (the `int` converted to the `size_type` of the vector), and
`none` when it returns without reading it: the read is guarded by
`idx < num_devices` alone. -/
def Freenect2.openDeviceReadIndex (idx : Int) (env : OpenDeviceEnv) (w : World) : Option Nat :=
  if idx < (w.impl_.getNumDevices env.bus).1 then some (toSizeT idx) else none

/-- The state after one enumeration that found the Kinect on bus 1, port 2. -/
def oneCandidate : World :=
  (Freenect2.enumerateDevices [kinect] World.init).2.1

/-! ## Theorems -/

/-! ### Device lifecycle -/

theorem start_of_not_open (d : Freenect2DeviceImpl) (h : d.state_ ≠ State.Open) :
    d.start = (d, []) := by
  simp [Freenect2DeviceImpl.start, h]

theorem stop_of_not_streaming (d : Freenect2DeviceImpl) (h : d.state_ ≠ State.Streaming) :
    d.stop = (d, []) := by
  simp [Freenect2DeviceImpl.stop, h]

theorem close_of_closed (d : Freenect2DeviceImpl) (h : d.state_ = State.Closed) :
    d.close = (d, []) := by
  simp [Freenect2DeviceImpl.close, h]

theorem open_of_not_created (env : OpenEnv) (d : Freenect2DeviceImpl)
    (h : d.state_ ≠ State.Created) : d.open env = (false, d, []) := by
  simp [Freenect2DeviceImpl.open, h]

theorem stop_state (d : Freenect2DeviceImpl) (h : d.state_ = State.Streaming) :
    d.stop.1.state_ = State.Open := by
  simp [Freenect2DeviceImpl.stop, h]

theorem close_state (d : Freenect2DeviceImpl) : d.close.1.state_ = State.Closed := by
  unfold Freenect2DeviceImpl.close
  split
  · assumption
  · rfl

/-- What `open()` leaves of a device: the USB device, the handle, the sequence
counter and the listeners are untouched; the state becomes `Open` exactly when
the result is `true` and is unchanged otherwise. -/
theorem open_fields (env : OpenEnv) (d : Freenect2DeviceImpl) :
    (d.open env).2.1.usb_device_ = d.usb_device_ ∧
    (d.open env).2.1.usb_device_handle_ = d.usb_device_handle_ ∧
    (d.open env).2.1.command_seq_ = d.command_seq_ ∧
    ((d.open env).1 = true → (d.open env).2.1.state_ = State.Open) ∧
    ((d.open env).1 = false → (d.open env).2.1.state_ = d.state_) ∧
    commandSeqs (d.open env).2.2 = [] := by
  simp only [Freenect2DeviceImpl.open]
  by_cases h0 : d.state_ ≠ State.Created
  · rw [if_pos h0]; simp [commandSeqs]
  rw [if_neg h0]
  by_cases h1 : env.setConfiguration ≠ UsbControl.ResultCode.Success
  · rw [if_pos h1]; simp [commandSeqs]
  rw [if_neg h1]
  by_cases h2 : (!d.has_usb_interfaces_
      && env.claimInterfaces != UsbControl.ResultCode.Success) = true
  · rw [if_pos h2]; cases d.has_usb_interfaces_ <;> simp [commandSeqs]
  rw [if_neg h2]
  by_cases h3 : env.setIsochronousDelay ≠ UsbControl.ResultCode.Success
  · rw [if_pos h3]; cases d.has_usb_interfaces_ <;> simp [commandSeqs]
  rw [if_neg h3]
  by_cases h4 : env.setIrInterfaceState ≠ UsbControl.ResultCode.Success
  · rw [if_pos h4]; cases d.has_usb_interfaces_ <;> simp [commandSeqs]
  rw [if_neg h4]
  by_cases h5 : env.enablePowerStates ≠ UsbControl.ResultCode.Success
  · rw [if_pos h5]; cases d.has_usb_interfaces_ <;> simp [commandSeqs]
  rw [if_neg h5]
  by_cases h6 : env.setVideoTransferFunctionState ≠ UsbControl.ResultCode.Success
  · rw [if_pos h6]; cases d.has_usb_interfaces_ <;> simp [commandSeqs]
  rw [if_neg h6]
  by_cases h7 : toSizeT env.max_iso_packet_size < 33792
  · rw [if_pos h7]; cases d.has_usb_interfaces_ <;> simp [commandSeqs]
  rw [if_neg h7]
  cases d.has_usb_interfaces_ <;> simp [commandSeqs]

theorem open_state_of_true (env : OpenEnv) (d : Freenect2DeviceImpl)
    (h : (d.open env).1 = true) : (d.open env).2.1.state_ = State.Open :=
  (open_fields env d).2.2.2.1 h

theorem open_state_of_false (env : OpenEnv) (d : Freenect2DeviceImpl)
    (h : (d.open env).1 = false) : (d.open env).2.1.state_ = d.state_ :=
  (open_fields env d).2.2.2.2.1 h

theorem applyCall_not_created (c : DeviceCall) (d : Freenect2DeviceImpl)
    (h : d.state_ ≠ State.Created) : (applyCall c d).1.state_ ≠ State.Created := by
  cases c
  · simp [applyCall, open_of_not_created _ d h, h]
  · by_cases hs : d.state_ = State.Open
    · simp [applyCall, Freenect2DeviceImpl.start, hs]
    · simp [applyCall, start_of_not_open d hs, h]
  · by_cases hs : d.state_ = State.Streaming
    · simp [applyCall, Freenect2DeviceImpl.stop, hs]
    · simp [applyCall, stop_of_not_streaming d hs, h]
  · simp [applyCall, close_state]

theorem runCalls_not_created (cs : List DeviceCall) (d : Freenect2DeviceImpl)
    (h : d.state_ ≠ State.Created) : (runCalls cs d).1.state_ ≠ State.Created := by
  induction cs generalizing d with
  | nil => simpa [runCalls] using h
  | cons c cs ih => exact ih _ (applyCall_not_created c d h)

/-- C7: `start()` on a device that is not `Open`, and `stop()` on a device that is
not `Streaming`, return the device record unchanged (state, sequence counter,
interface flag and every other field) and make no external call at all; in
particular `start()` from `Created` leaves the device in `Created`. -/
theorem start_stop_noop (d : Freenect2DeviceImpl) :
    (d.state_ ≠ State.Open → d.start = (d, [])) ∧
    (d.state_ ≠ State.Streaming → d.stop = (d, [])) ∧
    (d.state_ = State.Created → d.start.1.state_ = State.Created ∧ d.start.2 = []) := by
  refine ⟨start_of_not_open d, stop_of_not_streaming d, fun h => ?_⟩
  have hs : d.state_ ≠ State.Open := by simp [h]
  simp [start_of_not_open d hs, h]

theorem start_stop_noop_witness :
    (Freenect2DeviceImpl.new (some kinect) (some 7)).start
        = (Freenect2DeviceImpl.new (some kinect) (some 7), []) ∧
    (Freenect2DeviceImpl.new (some kinect) (some 7)).stop
        = (Freenect2DeviceImpl.new (some kinect) (some 7), []) ∧
    (Freenect2DeviceImpl.new (some kinect) (some 7)).start.1.state_ = State.Created :=
  ⟨(start_stop_noop (Freenect2DeviceImpl.new (some kinect) (some 7))).1 (by decide),
   (start_stop_noop (Freenect2DeviceImpl.new (some kinect) (some 7))).2.1 (by decide),
   ((start_stop_noop (Freenect2DeviceImpl.new (some kinect) (some 7))).2.2 (by decide)).1⟩

/-- C8: for a device in state `Streaming`, `close()` goes through `stop()`: `stop()`
leaves the device `Open`, the external calls of `close()` are those of `stop()`
followed by those of `close()` on the device `stop()` left, the resulting device
is the same, and its state is `Closed`. -/
theorem close_from_streaming (d : Freenect2DeviceImpl) (h : d.state_ = State.Streaming) :
    d.stop.1.state_ = State.Open ∧
    d.close.2 = d.stop.2 ++ d.stop.1.close.2 ∧
    d.close.1 = d.stop.1.close.1 ∧
    d.close.1.state_ = State.Closed := by
  refine ⟨stop_state d h, ?_, ?_, close_state d⟩
  · have h1 := stop_state d h
    unfold Freenect2DeviceImpl.close
    simp [h, h1]
    cases d.stop.1.has_usb_interfaces_ <;> simp
  · have h1 := stop_state d h
    unfold Freenect2DeviceImpl.close
    simp [h, h1]

theorem close_from_streaming_witness :
    (runCalls [DeviceCall.open okOpenEnv, DeviceCall.start]
        (Freenect2DeviceImpl.new (some kinect) (some 7))).1.state_ = State.Streaming ∧
    (runCalls [DeviceCall.open okOpenEnv, DeviceCall.start]
        (Freenect2DeviceImpl.new (some kinect) (some 7))).1.close.1.state_ = State.Closed :=
  ⟨by decide,
   (close_from_streaming (runCalls [DeviceCall.open okOpenEnv, DeviceCall.start]
      (Freenect2DeviceImpl.new (some kinect) (some 7))).1 (by decide)).2.2.2⟩

/-- C9: `close()` on a device in state `Closed` returns the record unchanged and
makes no external call (no interface release, no pool deallocation, no second
`libusb_close`); hence for every device a second `close()` changes nothing:
`close(); close()` ends in the same record and makes the same external calls as
one `close()`. -/
theorem close_idempotent (d : Freenect2DeviceImpl) :
    (d.state_ = State.Closed → d.close = (d, [])) ∧
    d.close.1.close = (d.close.1, []) ∧
    runCalls [DeviceCall.close, DeviceCall.close] d = runCalls [DeviceCall.close] d := by
  have h2 : d.close.1.close = (d.close.1, []) := close_of_closed _ (close_state d)
  refine ⟨close_of_closed d, h2, ?_⟩
  simp [runCalls, applyCall, h2]

theorem close_idempotent_witness :
    ((Freenect2DeviceImpl.new (some kinect) (some 7)).close.1).close
      = ((Freenect2DeviceImpl.new (some kinect) (some 7)).close.1, []) :=
  (close_idempotent (Freenect2DeviceImpl.new (some kinect) (some 7)).close.1).1 (by decide)

/-- C10: `open()` on a device whose state is not `Created` (`Open`, `Streaming` or
`Closed`) returns `false`, leaves every field unchanged and makes no external
call (no control-channel call, no pool allocation). Once an `open()` has
succeeded this is so for every later `open()`, whatever calls were made in
between. -/
theorem open_noop_unless_created (env : OpenEnv) (d : Freenect2DeviceImpl) :
    (d.state_ ≠ State.Created → d.open env = (false, d, [])) ∧
    ((d.open env).1 = true → ∀ (cs : List DeviceCall) (env1 : OpenEnv),
      (runCalls cs (d.open env).2.1).1.open env1
        = (false, (runCalls cs (d.open env).2.1).1, [])) := by
  refine ⟨open_of_not_created env d, fun h cs env1 => ?_⟩
  apply open_of_not_created
  apply runCalls_not_created
  simp [open_state_of_true env d h]

theorem open_noop_unless_created_witness :
    ((Freenect2DeviceImpl.new (some kinect) (some 7)).open okOpenEnv).2.1.open okOpenEnv
      = (false, ((Freenect2DeviceImpl.new (some kinect) (some 7)).open okOpenEnv).2.1, []) :=
  (open_noop_unless_created okOpenEnv
    ((Freenect2DeviceImpl.new (some kinect) (some 7)).open okOpenEnv).2.1).1 (by decide)

/-! ### Command sequence numbers -/

theorem wrapInt_add (a b : Int) : wrapInt (wrapInt a + b) = wrapInt (a + b) := by
  unfold wrapInt
  omega

theorem wrapInt_of_lt (k : Nat) (h : k < 2147483648) : wrapInt (k : Int) = (k : Int) := by
  unfold wrapInt
  omega

theorem commandSeqs_append (a b : List Event) :
    commandSeqs (a ++ b) = commandSeqs a ++ commandSeqs b := by
  induction a with
  | nil => rfl
  | cons e a ih => cases e <;> simp [commandSeqs, ih]

theorem seqsFrom_add (k : Int) (n m : Nat) :
    seqsFrom k (n + m) = seqsFrom k n ++ seqsFrom (k + (n : Int)) m := by
  unfold seqsFrom
  rw [List.range_add, List.map_append, List.map_map]
  congr 1
  apply List.map_congr_left
  intro i _
  simp [add_assoc]

theorem start_seqs (d : Freenect2DeviceImpl) (k : Int) (hs : d.state_ = State.Open)
    (hk : d.command_seq_ = wrapInt k) :
    commandSeqs d.start.2 = seqsFrom k 10 ∧ d.start.1.command_seq_ = wrapInt (k + 10)
      ∧ d.start.1.state_ = State.Streaming := by
  simp [Freenect2DeviceImpl.start, hs, Freenect2DeviceImpl.nextCommandSeq, commandSeqs,
    seqsFrom, List.range_succ, hk, wrapInt_add]
  simp [add_assoc, wrapInt_add]

theorem stop_seqs (d : Freenect2DeviceImpl) (k : Int) (hs : d.state_ = State.Streaming)
    (hk : d.command_seq_ = wrapInt k) :
    commandSeqs d.stop.2 = seqsFrom k 2 ∧ d.stop.1.command_seq_ = wrapInt (k + 2)
      ∧ d.stop.1.state_ = State.Open := by
  simp [Freenect2DeviceImpl.stop, hs, Freenect2DeviceImpl.nextCommandSeq, commandSeqs,
    seqsFrom, List.range_succ, hk, wrapInt_add]
  simp [add_assoc, wrapInt_add]


theorem applyCall_seqs (c : DeviceCall) (d : Freenect2DeviceImpl) (k : Int)
    (hk : d.command_seq_ = wrapInt k) :
    ∃ n : Nat, commandSeqs (applyCall c d).2 = seqsFrom k n ∧
      (applyCall c d).1.command_seq_ = wrapInt (k + (n : Int)) := by
  cases c
  · refine ⟨0, ?_, ?_⟩
    · simpa [applyCall, seqsFrom] using (open_fields _ d).2.2.2.2.2
    · simpa [applyCall, hk] using (open_fields _ d).2.2.1
  · by_cases hs : d.state_ = State.Open
    · exact ⟨10, (start_seqs d k hs hk).1, (start_seqs d k hs hk).2.1⟩
    · exact ⟨0, by simp [applyCall, start_of_not_open d hs, commandSeqs, seqsFrom],
        by simp [applyCall, start_of_not_open d hs, hk]⟩
  · by_cases hs : d.state_ = State.Streaming
    · exact ⟨2, (stop_seqs d k hs hk).1, (stop_seqs d k hs hk).2.1⟩
    · exact ⟨0, by simp [applyCall, stop_of_not_streaming d hs, commandSeqs, seqsFrom],
        by simp [applyCall, stop_of_not_streaming d hs, hk]⟩
  · by_cases hc : d.state_ = State.Closed
    · exact ⟨0, by simp [applyCall, close_of_closed d hc, commandSeqs, seqsFrom],
        by simp [applyCall, close_of_closed d hc, hk]⟩
    · by_cases hs : d.state_ = State.Streaming
      · refine ⟨2, ?_, ?_⟩
        · have h1 := (stop_seqs d k hs hk).1
          simp only [applyCall, Freenect2DeviceImpl.close, hs]
          simp [commandSeqs_append, h1, commandSeqs]
          cases d.stop.1.has_usb_interfaces_ <;> simp [commandSeqs_append, h1, commandSeqs]
        · have h1 := (stop_seqs d k hs hk).2.1
          simp only [applyCall, Freenect2DeviceImpl.close, hs]
          simpa using h1
      · refine ⟨0, ?_, ?_⟩
        · simp only [applyCall, Freenect2DeviceImpl.close, hs, hc]
          by_cases hh : d.has_usb_interfaces_ = true <;>
            simp [hh, commandSeqs, seqsFrom, commandSeqs_append]
        · simp [applyCall, Freenect2DeviceImpl.close, hs, hc, hk]

theorem runCalls_seqs (cs : List DeviceCall) (d : Freenect2DeviceImpl) (k : Int)
    (hk : d.command_seq_ = wrapInt k) :
    ∃ n : Nat, commandSeqs (runCalls cs d).2 = seqsFrom k n ∧
      (runCalls cs d).1.command_seq_ = wrapInt (k + (n : Int)) := by
  induction cs generalizing d k with
  | nil => exact ⟨0, by simp [runCalls, commandSeqs, seqsFrom], by simp [runCalls, hk]⟩
  | cons c cs ih =>
    obtain ⟨n1, h1, h2⟩ := applyCall_seqs c d k hk
    obtain ⟨n2, h3, h4⟩ := ih (applyCall c d).1 (k + (n1 : Int)) h2
    refine ⟨n1 + n2, ?_, ?_⟩
    · simp only [runCalls, commandSeqs_append, h1, h3, seqsFrom_add]
    · simp only [runCalls, h4]
      push_cast
      rw [add_assoc]

theorem seqsFrom_getElem (k : Int) (n i : Nat) (s : Int) (h : (seqsFrom k n)[i]? = some s) :
    s = wrapInt (k + (i : Int)) ∧ i < n := by
  unfold seqsFrom at h
  rw [List.getElem?_map] at h
  by_cases hi : i < n
  · rw [List.getElem?_range hi] at h
    simp at h
    exact ⟨h.symm, hi⟩
  · rw [List.getElem?_eq_none (by simpa using hi)] at h
    simp at h

theorem runCalls_append (a b : List DeviceCall) (d : Freenect2DeviceImpl) :
    runCalls (a ++ b) d
      = ((runCalls b (runCalls a d).1).1, (runCalls a d).2 ++ (runCalls b (runCalls a d).1).2) := by
  induction a generalizing d with
  | nil => simp [runCalls]
  | cons c a ih => simp [runCalls, ih, List.append_assoc]

theorem start_count (d : Freenect2DeviceImpl) (hs : d.state_ = State.Open) :
    (commandSeqs d.start.2).length = 10 ∧ d.start.1.state_ = State.Streaming := by
  simp [Freenect2DeviceImpl.start, hs, commandSeqs]

theorem stop_count (d : Freenect2DeviceImpl) (hs : d.state_ = State.Streaming) :
    (commandSeqs d.stop.2).length = 2 ∧ d.stop.1.state_ = State.Open := by
  simp [Freenect2DeviceImpl.stop, hs, commandSeqs]

theorem startStopCycles_run (m : Nat) (d : Freenect2DeviceImpl) (hs : d.state_ = State.Open) :
    (runCalls (startStopCycles m) d).1.state_ = State.Open ∧
      (commandSeqs (runCalls (startStopCycles m) d).2).length = 12 * m := by
  induction m generalizing d with
  | zero => simp [startStopCycles, runCalls, hs, commandSeqs]
  | succ m ih =>
    obtain ⟨h1, h2⟩ := start_count d hs
    obtain ⟨h3, h4⟩ := stop_count d.start.1 h2
    obtain ⟨h5, h6⟩ := ih d.start.1.stop.1 h4
    refine ⟨?_, ?_⟩
    · simpa [startStopCycles, runCalls, applyCall] using h5
    · simp only [startStopCycles, runCalls, applyCall, commandSeqs_append, List.length_append,
        h1, h3, h6]
      omega

theorem runCalls_cons (c : DeviceCall) (cs : List DeviceCall) (d : Freenect2DeviceImpl) :
    runCalls (c :: cs) d
      = ((runCalls cs (applyCall c d).1).1,
          (applyCall c d).2 ++ (runCalls cs (applyCall c d).1).2) := rfl

theorem runCalls_start_count (d : Freenect2DeviceImpl) (hs : d.state_ = State.Open) :
    (commandSeqs (runCalls [DeviceCall.start] d).2).length = 10 := by
  simpa [runCalls, applyCall] using (start_count d hs).1

theorem open_cycles_start_count (m : Nat) :
    (commandSeqs (runCalls
        (DeviceCall.open okOpenEnv :: (startStopCycles m ++ [DeviceCall.start]))
        (Freenect2DeviceImpl.new (some kinect) (some 7))).2).length = 12 * m + 10 := by
  have e1 : (applyCall (DeviceCall.open okOpenEnv)
      (Freenect2DeviceImpl.new (some kinect) (some 7))).1.state_ = State.Open := by decide
  have e2 : commandSeqs (applyCall (DeviceCall.open okOpenEnv)
      (Freenect2DeviceImpl.new (some kinect) (some 7))).2 = [] := by decide
  obtain ⟨c1, c2⟩ := startStopCycles_run m _ e1
  have c3 := runCalls_start_count _ c1
  rw [runCalls_cons, runCalls_append]
  simp only [commandSeqs_append, List.length_append, e2, c2, c3, List.length_nil]
  omega

/-- C1 (as stated, refuted): the counter is a 32-bit `int`. After a successful
`open()`, 178956970 rounds of `start()`/`stop()` and one more `start()`, the
transaction number 2147483648 carries 2147483647 and the next one, number
2147483649, carries -2147483648 instead of 2147483648: the sequence numbers are
no longer increasing. -/
theorem command_seq_wraps :
    (commandSeqs (runCalls
        (DeviceCall.open okOpenEnv :: (startStopCycles 178956970 ++ [DeviceCall.start]))
        (Freenect2DeviceImpl.new (some kinect) (some 7))).2)[2147483647]? = some 2147483647 ∧
    (commandSeqs (runCalls
        (DeviceCall.open okOpenEnv :: (startStopCycles 178956970 ++ [DeviceCall.start]))
        (Freenect2DeviceImpl.new (some kinect) (some 7))).2)[2147483648]?
      = some (-2147483648) := by
  obtain ⟨n, h1, -⟩ := runCalls_seqs
    (DeviceCall.open okOpenEnv :: (startStopCycles 178956970 ++ [DeviceCall.start]))
    (Freenect2DeviceImpl.new (some kinect) (some 7)) 0 (by decide)
  have hn : n = 2147483650 := by
    have hl := congrArg List.length h1
    rw [open_cycles_start_count 178956970] at hl
    simp only [seqsFrom, List.length_map, List.length_range] at hl
    omega
  rw [h1, hn]
  unfold seqsFrom
  rw [List.getElem?_map, List.getElem?_map, List.getElem?_range (by norm_num),
    List.getElem?_range (by norm_num)]
  constructor <;> (simp [wrapInt])

/-- C1 (amended): on a freshly constructed device the counter is 0, and for every
sequence of `open()`/`start()`/`stop()`/`close()` calls the transaction issued at
position `k` (counting from 0) carries sequence number `k` as long as
`k < 2^31`, the range of the 32-bit `int` counter; so the first 2^31 sequence
numbers are strictly increasing and never repeat. `start()` from `Open` issues
exactly 10 transactions and `stop()` from `Streaming` exactly 2. -/
theorem command_seqs_bounded (usb_device : Option UsbDevice) (handle : Option Nat)
    (cs : List DeviceCall) :
    (Freenect2DeviceImpl.new usb_device handle).command_seq_ = 0 ∧
    (∀ (k : Nat) (s : Int), k < 2147483648 →
      (commandSeqs (runCalls cs (Freenect2DeviceImpl.new usb_device handle)).2)[k]? = some s →
      s = (k : Int)) ∧
    (∀ (i j : Nat) (si sj : Int), i < j → j < 2147483648 →
      (commandSeqs (runCalls cs (Freenect2DeviceImpl.new usb_device handle)).2)[i]? = some si →
      (commandSeqs (runCalls cs (Freenect2DeviceImpl.new usb_device handle)).2)[j]? = some sj →
      si < sj) ∧
    (∀ d : Freenect2DeviceImpl, d.state_ = State.Open → (commandSeqs d.start.2).length = 10) ∧
    (∀ d : Freenect2DeviceImpl, d.state_ = State.Streaming →
      (commandSeqs d.stop.2).length = 2) := by
  obtain ⟨n, h1, -⟩ := runCalls_seqs cs (Freenect2DeviceImpl.new usb_device handle) 0
    (by simp [Freenect2DeviceImpl.new, wrapInt])
  have key : ∀ (k : Nat) (s : Int), k < 2147483648 →
      (commandSeqs (runCalls cs (Freenect2DeviceImpl.new usb_device handle)).2)[k]? = some s →
      s = (k : Int) := by
    intro k s hk hs
    rw [h1] at hs
    have h2 := (seqsFrom_getElem 0 n k s hs).1
    rw [h2, zero_add]
    exact wrapInt_of_lt k hk
  refine ⟨rfl, key, ?_, fun d hd => (start_count d hd).1, fun d hd => (stop_count d hd).1⟩
  intro i j si sj hij hj hi hj2
  rw [key i si (by omega) hi, key j sj hj hj2]
  exact_mod_cast hij

theorem command_seqs_bounded_witness :
    (commandSeqs (runCalls [DeviceCall.open okOpenEnv, DeviceCall.start, DeviceCall.stop]
      (Freenect2DeviceImpl.new (some kinect) (some 7))).2)[11]? = some (11 : Int) ∧
    (11 : Int) = ((11 : Nat) : Int) :=
  ⟨by decide,
   (command_seqs_bounded (some kinect) (some 7)
      [DeviceCall.open okOpenEnv, DeviceCall.start, DeviceCall.stop]).2.1 11 11
      (by decide) (by decide)⟩

/-! ### Enumeration -/

theorem isKinect_iff (dev : UsbDevice) :
    isKinect dev = decide (dev.idVendor = 0x045E ∧ dev.idProduct = 0x02C4) := by
  rw [Bool.eq_iff_iff]
  simp [isKinect, Freenect2Device.VendorId, Freenect2Device.ProductId]

theorem getNumDevices_devices (bus : List UsbDevice) (m : Freenect2Impl) :
    (m.getNumDevices bus).2.1.devices_ = m.devices_ := by
  unfold Freenect2Impl.getNumDevices
  split <;> rfl

theorem getNumDevices_count (bus : List UsbDevice) (m : Freenect2Impl) :
    (m.getNumDevices bus).1 = ((m.getNumDevices bus).2.1.enumerated_devices_.length : Int) := by
  unfold Freenect2Impl.getNumDevices
  split <;> rfl

theorem getNumDevices_flag (bus : List UsbDevice) (m : Freenect2Impl) :
    (m.getNumDevices bus).2.1.has_device_enumeration_ = true := by
  unfold Freenect2Impl.getNumDevices
  split
  · rfl
  · simp_all

theorem getNumDevices_of_flag (bus : List UsbDevice) (m : Freenect2Impl)
    (h : m.has_device_enumeration_ = true) :
    m.getNumDevices bus = ((m.enumerated_devices_.length : Int), m, []) := by
  simp [Freenect2Impl.getNumDevices, h]

theorem getNumDevices_events (bus : List UsbDevice) (m : Freenect2Impl) :
    ∀ e ∈ (m.getNumDevices bus).2.2, e.isEnumeration = true := by
  unfold Freenect2Impl.getNumDevices
  split
  · intro e he
    simp only [Freenect2Impl.enumerateDevices, List.mem_append, List.mem_singleton,
      List.mem_map] at he
    rcases he with (rfl | ⟨dev, -, rfl⟩) | rfl <;> rfl
  · intro e he
    simp at he

theorem openDevice_of_le (idx : Int) (env : OpenDeviceEnv) (w : World)
    (h : ((w.impl_.getNumDevices env.bus).2.1.enumerated_devices_.length : Int) ≤ idx) :
    Freenect2.openDevice idx env w
      = some (none, { w with impl_ := (w.impl_.getNumDevices env.bus).2.1 },
          (w.impl_.getNumDevices env.bus).2.2) := by
  have h1 : ¬ idx < (w.impl_.getNumDevices env.bus).1 := by
    rw [getNumDevices_count]
    omega
  simp only [Freenect2.openDevice, h1, if_false]

/-- C6: whatever the candidate list was before, after `Freenect2::enumerateDevices`
the candidate list is the list of visible devices whose vendor id is 0x045E and
whose product id is 0x02C4, in the order of the bus, and the returned count is
its length; enumerating again over the same bus gives the same list and count. -/
theorem enumerateDevices_rebuilds (bus : List UsbDevice) (w : World) :
    (Freenect2.enumerateDevices bus w).2.1.impl_.enumerated_devices_
      = bus.filter (fun dev => decide (dev.idVendor = 0x045E ∧ dev.idProduct = 0x02C4)) ∧
    (Freenect2.enumerateDevices bus w).1
      = ((bus.filter (fun dev =>
          decide (dev.idVendor = 0x045E ∧ dev.idProduct = 0x02C4))).length : Int) ∧
    (Freenect2.enumerateDevices bus
        (Freenect2.enumerateDevices bus w).2.1).2.1.impl_.enumerated_devices_
      = (Freenect2.enumerateDevices bus w).2.1.impl_.enumerated_devices_ ∧
    (Freenect2.enumerateDevices bus (Freenect2.enumerateDevices bus w).2.1).1
      = (Freenect2.enumerateDevices bus w).1 := by
  have hf : (fun dev => decide (dev.idVendor = 0x045E ∧ dev.idProduct = 0x02C4)) = isKinect := by
    funext dev
    exact (isKinect_iff dev).symm
  rw [hf]
  simp [Freenect2.enumerateDevices, Freenect2Impl.clearDeviceEnumeration,
    Freenect2Impl.getNumDevices, Freenect2Impl.enumerateDevices]

/-- C5: when `idx` is at least the number of enumerated candidates (the length of
the candidate list `openDevice` works on, after the enumeration it runs when
there is none yet), `openDevice(idx)` returns the null pointer, leaves the
registry and the device objects as they were, and its only external calls are
those of that enumeration: no USB handle is opened and no device is constructed.
In particular, over a bus without a matching device `enumerateDevices()` returns
0 and `openDevice(0)` then returns the null pointer without any external call. -/
theorem openDevice_out_of_range (idx : Int) (env : OpenDeviceEnv) (w : World)
    (bus : List UsbDevice) :
    (((w.impl_.getNumDevices env.bus).2.1.enumerated_devices_.length : Int) ≤ idx →
      ∃ (w1 : World) (t : List SysEvent),
        Freenect2.openDevice idx env w = some (none, w1, t) ∧
        w1.impl_.devices_ = w.impl_.devices_ ∧ w1.heap = w.heap ∧
        ∀ e ∈ t, e.isEnumeration = true) ∧
    ((∀ dev ∈ bus, ¬ (dev.idVendor = 0x045E ∧ dev.idProduct = 0x02C4)) →
      (Freenect2.enumerateDevices bus w).1 = 0 ∧
      Freenect2.openDevice 0 env (Freenect2.enumerateDevices bus w).2.1
        = some (none, (Freenect2.enumerateDevices bus w).2.1, [])) := by
  constructor
  · intro h
    exact ⟨_, _, openDevice_of_le idx env w h, getNumDevices_devices _ _, rfl,
      getNumDevices_events _ _⟩
  · intro h
    have hnil : bus.filter isKinect = [] := by
      rw [List.filter_eq_nil_iff]
      intro dev hdev
      rw [isKinect_iff]
      simpa using h dev hdev
    have h1 : (Freenect2.enumerateDevices bus w).2.1.impl_
        = { w.impl_ with enumerated_devices_ := [], has_device_enumeration_ := true } := by
      simp [Freenect2.enumerateDevices, Freenect2Impl.clearDeviceEnumeration,
        Freenect2Impl.getNumDevices, Freenect2Impl.enumerateDevices, hnil]
    have h2 : (Freenect2.enumerateDevices bus w).1 = 0 := by
      simp [Freenect2.enumerateDevices, Freenect2Impl.clearDeviceEnumeration,
        Freenect2Impl.getNumDevices, Freenect2Impl.enumerateDevices, hnil]
    refine ⟨h2, ?_⟩
    have hg : (Freenect2.enumerateDevices bus w).2.1.impl_.getNumDevices env.bus
        = (0, (Freenect2.enumerateDevices bus w).2.1.impl_, []) := by
      rw [getNumDevices_of_flag _ _ (by rw [h1])]
      rw [h1]
      rfl
    rw [openDevice_of_le 0 env _ (by rw [hg]; simp [h1])]
    rw [hg]

theorem openDevice_out_of_range_witness :
    Freenect2.openDevice 1 (busEnv [otherUsb, kinect] okOpenEnv) World.init
      = some (none,
          { impl_ := { has_device_enumeration_ := true, enumerated_devices_ := [kinect],
                       devices_ := [] },
            heap := [] },
          [SysEvent.libusb_get_device_list, SysEvent.libusb_unref_device otherUsb,
           SysEvent.libusb_free_device_list]) ∧
    (Freenect2.enumerateDevices [otherUsb] World.init).1 = 0 ∧
    Freenect2.openDevice 0 (busEnv [otherUsb] okOpenEnv)
        (Freenect2.enumerateDevices [otherUsb] World.init).2.1
      = some (none, (Freenect2.enumerateDevices [otherUsb] World.init).2.1, []) :=
  ⟨by decide,
   (openDevice_out_of_range 0 (busEnv [otherUsb] okOpenEnv)
      World.init [otherUsb]).2 (by decide)⟩

/-! ### Device objects and the registry -/

theorem derefDevice_lt (heap : List (Option Freenect2DeviceImpl)) (p : Nat)
    (d : Freenect2DeviceImpl) (h : derefDevice heap p = some d) : p < heap.length := by
  by_contra hp
  rw [derefDevice, List.getElem?_eq_none (by omega)] at h
  simp at h

theorem derefDevice_set_self (heap : List (Option Freenect2DeviceImpl)) (p : Nat)
    (x : Option Freenect2DeviceImpl) (h : p < heap.length) :
    derefDevice (heap.set p x) p = x := by
  unfold derefDevice
  rw [List.getElem?_set_self h]
  cases x <;> rfl

theorem derefDevice_set_ne (heap : List (Option Freenect2DeviceImpl)) (p q : Nat)
    (x : Option Freenect2DeviceImpl) (h : q ≠ p) :
    derefDevice (heap.set p x) q = derefDevice heap q := by
  unfold derefDevice
  rw [List.getElem?_set_ne (Ne.symm h)]

theorem derefDevice_append_lt (heap l : List (Option Freenect2DeviceImpl)) (q : Nat)
    (h : q < heap.length) : derefDevice (heap ++ l) q = derefDevice heap q := by
  unfold derefDevice
  rw [List.getElem?_append_left h]

theorem derefDevice_append_length (heap : List (Option Freenect2DeviceImpl))
    (x : Option Freenect2DeviceImpl) : derefDevice (heap ++ [x]) heap.length = x := by
  unfold derefDevice
  rw [List.getElem?_append_right (le_refl _)]
  cases x <;> simp

theorem derefDevice_append_some (heap : List (Option Freenect2DeviceImpl))
    (x : Option Freenect2DeviceImpl) (q : Nat) (d : Freenect2DeviceImpl)
    (h : derefDevice (heap ++ [x]) q = some d) :
    derefDevice heap q = some d ∨ (q = heap.length ∧ x = some d) := by
  by_cases hq : q < heap.length
  · left
    rwa [derefDevice_append_lt _ _ _ hq] at h
  · have h1 := derefDevice_lt _ _ _ h
    simp at h1
    have h2 : q = heap.length := by omega
    subst h2
    rw [derefDevice_append_length] at h
    exact Or.inr ⟨rfl, h⟩

theorem tryGetDeviceLoop_none (heap : List (Option Freenect2DeviceImpl)) (u : UsbDevice)
    (l : List Nat) (h : tryGetDeviceLoop heap u l = some none) :
    ∀ p ∈ l, ∀ d, derefDevice heap p = some d → d.isSameUsbDevice u = false := by
  induction l with
  | nil => intro p hp; simp at hp
  | cons a l ih =>
    intro p hp d hd
    unfold tryGetDeviceLoop at h
    cases ha : derefDevice heap a with
    | none => simp [ha] at h
    | some da =>
      simp only [ha] at h
      by_cases hs : da.isSameUsbDevice u = true
      · simp [hs] at h
      · simp only [hs] at h
        rcases List.mem_cons.1 hp with rfl | hp
        · rw [ha] at hd
          cases hd
          simpa using hs
        · exact ih (by simpa using h) p hp d hd

theorem tryGetDeviceLoop_some (heap : List (Option Freenect2DeviceImpl)) (u : UsbDevice)
    (l : List Nat) (p : Nat) (h : tryGetDeviceLoop heap u l = some (some p)) :
    p ∈ l ∧ ∃ d, derefDevice heap p = some d ∧ d.isSameUsbDevice u = true := by
  induction l with
  | nil => simp [tryGetDeviceLoop] at h
  | cons a l ih =>
    unfold tryGetDeviceLoop at h
    cases ha : derefDevice heap a with
    | none => simp [ha] at h
    | some da =>
      simp only [ha] at h
      by_cases hs : da.isSameUsbDevice u = true
      · simp only [hs, if_true] at h
        cases h
        exact ⟨List.mem_cons_self _ _, da, ha, hs⟩
      · simp only [hs] at h
        obtain ⟨h1, h2⟩ := ih (by simpa using h)
        exact ⟨List.mem_cons_of_mem _ h1, h2⟩

theorem tryGetDeviceLoop_found (heap : List (Option Freenect2DeviceImpl)) (u : UsbDevice)
    (l : List Nat) (p : Nat) (d : Freenect2DeviceImpl) (hp : p ∈ l)
    (hd : derefDevice heap p = some d) (hs : d.isSameUsbDevice u = true)
    (hlive : ∀ q ∈ l, ∃ dq, derefDevice heap q = some dq)
    (huniq : ∀ q ∈ l, q ≠ p → ∀ dq, derefDevice heap q = some dq →
      dq.isSameUsbDevice u = false) :
    tryGetDeviceLoop heap u l = some (some p) := by
  induction l with
  | nil => simp at hp
  | cons a l ih =>
    unfold tryGetDeviceLoop
    by_cases hap : a = p
    · subst hap
      simp [hd, hs]
    · obtain ⟨da, hda⟩ := hlive a (List.mem_cons_self _ _)
      have h1 := huniq a (List.mem_cons_self _ _) hap da hda
      simp only [hda, h1]
      have hp1 : p ∈ l := by
        rcases List.mem_cons.1 hp with rfl | h
        · exact absurd rfl hap
        · exact h
      simpa using ih hp1 (fun q hq => hlive q (List.mem_cons_of_mem _ hq))
        (fun q hq => huniq q (List.mem_cons_of_mem _ hq))

theorem isSameUsbDevice_iff (d : Freenect2DeviceImpl) (u : UsbDevice) :
    d.isSameUsbDevice u = true ↔
      d.state_ ≠ State.Closed ∧ ∃ dev, d.usb_device_ = some dev ∧
        toUChar dev.bus_number = toUChar u.bus_number ∧
        toUChar dev.port_number = toUChar u.port_number := by
  unfold Freenect2DeviceImpl.isSameUsbDevice
  by_cases hs : d.state_ = State.Closed
  · simp [hs]
  · cases hd : d.usb_device_ with
    | none => simp [hs]
    | some dev => simp [hs]

theorem isSameUsbDevice_start (d : Freenect2DeviceImpl) (u : UsbDevice) :
    d.start.1.isSameUsbDevice u = d.isSameUsbDevice u := by
  by_cases hs : d.state_ = State.Open
  · simp [Freenect2DeviceImpl.start, hs, Freenect2DeviceImpl.isSameUsbDevice,
      Freenect2DeviceImpl.nextCommandSeq]
  · rw [start_of_not_open d hs]

theorem isSameUsbDevice_stop (d : Freenect2DeviceImpl) (u : UsbDevice) :
    d.stop.1.isSameUsbDevice u = d.isSameUsbDevice u := by
  by_cases hs : d.state_ = State.Streaming
  · simp [Freenect2DeviceImpl.stop, hs, Freenect2DeviceImpl.isSameUsbDevice,
      Freenect2DeviceImpl.nextCommandSeq]
  · rw [stop_of_not_streaming d hs]

theorem isSameUsbDevice_close (d : Freenect2DeviceImpl) (u : UsbDevice) :
    d.close.1.isSameUsbDevice u = false := by
  simp [Freenect2DeviceImpl.isSameUsbDevice, close_state]

theorem benign_start : Benign Freenect2DeviceImpl.start := by
  intro d
  refine ⟨fun u h => by rwa [isSameUsbDevice_start] at h, fun h => ?_⟩
  exact applyCall_not_created DeviceCall.start d h

theorem benign_stop : Benign Freenect2DeviceImpl.stop := by
  intro d
  refine ⟨fun u h => by rwa [isSameUsbDevice_stop] at h, fun h => ?_⟩
  exact applyCall_not_created DeviceCall.stop d h

theorem benign_close : Benign Freenect2DeviceImpl.close := by
  intro d
  refine ⟨fun u h => (by rw [isSameUsbDevice_close] at h; cases h), fun h => ?_⟩
  exact applyCall_not_created DeviceCall.close d h

theorem benign_setColorFrameListener (l : Option Nat) :
    Benign (Freenect2DeviceImpl.setColorFrameListener l) := by
  intro d
  exact ⟨fun u h => by simpa [Freenect2DeviceImpl.setColorFrameListener,
    Freenect2DeviceImpl.isSameUsbDevice] using h, fun h => h⟩

theorem benign_setIrAndDepthFrameListener (l : Option Nat) :
    Benign (Freenect2DeviceImpl.setIrAndDepthFrameListener l) := by
  intro d
  exact ⟨fun u h => by simpa [Freenect2DeviceImpl.setIrAndDepthFrameListener,
    Freenect2DeviceImpl.isSameUsbDevice] using h, fun h => h⟩

theorem inv_init : World.init.Inv := by
  refine ⟨by simp [World.init, Freenect2Impl.new], ?_, ?_, ?_, ?_⟩
  · intro p hp
    simp [World.init, Freenect2Impl.new] at hp
  · intro p d h
    simp [World.init, derefDevice] at h
  · intro p d h
    simp [World.init, derefDevice] at h
  · intro p hp
    simp [World.init, Freenect2Impl.new] at hp

/-- The invariant carries over to a state with the same registry in which every
device object is still there and recognises no more USB devices than before. -/
theorem inv_of_refines (w w1 : World) (hdev : w1.impl_.devices_ = w.impl_.devices_)
    (h1 : ∀ q y, derefDevice w1.heap q = some y → ∃ y0, derefDevice w.heap q = some y0 ∧
      (∀ u, y.isSameUsbDevice u = true → y0.isSameUsbDevice u = true) ∧
      (y0.state_ ≠ State.Created → y.state_ ≠ State.Created))
    (h2 : ∀ q y0, derefDevice w.heap q = some y0 → ∃ y, derefDevice w1.heap q = some y)
    (hw : w.Inv) : w1.Inv := by
  refine ⟨by rw [hdev]; exact hw.nodup, ?_, ?_, ?_, ?_⟩
  · intro p hp
    rw [hdev] at hp
    obtain ⟨d, hd⟩ := hw.live p hp
    exact h2 p d hd
  · intro p d hd
    obtain ⟨y0, hy0, -, -⟩ := h1 p d hd
    rw [hdev]
    exact hw.registered p y0 hy0
  · intro p d hd
    obtain ⟨y0, hy0, -, hc⟩ := h1 p d hd
    exact hc (hw.opened p y0 hy0)
  · intro p hp q hq hpq dp dq hdp hdq u hu
    rw [hdev] at hp hq
    obtain ⟨p0, hp0, hps, -⟩ := h1 p dp hdp
    obtain ⟨q0, hq0, hqs, -⟩ := h1 q dq hdq
    have := hw.unique p hp q hq hpq p0 q0 hp0 hq0 u (hps u hu)
    cases hq1 : dq.isSameUsbDevice u with
    | false => rfl
    | true => rw [hqs u hq1] at this; cases this

theorem inv_callDevice (f : Freenect2DeviceImpl → Freenect2DeviceImpl × List Event)
    (hf : Benign f) (p : Nat) (w w1 : World) (t : List SysEvent)
    (h : w.callDevice f p = some (w1, t)) (hw : w.Inv) : w1.Inv := by
  unfold World.callDevice at h
  cases hd : derefDevice w.heap p with
  | none => simp [hd] at h
  | some d =>
    simp only [hd, Option.some.injEq, Prod.mk.injEq] at h
    obtain ⟨rfl, -⟩ := h
    have hp := derefDevice_lt _ _ _ hd
    refine inv_of_refines w _ rfl ?_ ?_ hw
    · intro q y hy
      by_cases hq : q = p
      · subst hq
        simp only [derefDevice_set_self _ _ _ hp, Option.some.injEq] at hy
        subst hy
        exact ⟨d, hd, (hf d).1, (hf d).2⟩
      · simp only [derefDevice_set_ne _ _ _ _ hq] at hy
        exact ⟨y, hy, fun _ h => h, fun h => h⟩
    · intro q y0 hy0
      by_cases hq : q = p
      · subst hq
        exact ⟨_, derefDevice_set_self _ _ _ hp⟩
      · exact ⟨y0, by simpa only [derefDevice_set_ne _ _ _ _ hq] using hy0⟩

theorem removeDevice_fst (device : Nat) (m : Freenect2Impl) :
    (m.removeDevice device).1 = { m with devices_ := m.devices_.erase device } := by
  unfold Freenect2Impl.removeDevice
  by_cases h : device ∈ m.devices_
  · rw [if_pos h]
  · rw [if_neg h, List.erase_of_not_mem h]

theorem removeDevice_snd_of_mem (device : Nat) (m : Freenect2Impl)
    (h : device ∈ m.devices_) : (m.removeDevice device).2 = [] := by
  unfold Freenect2Impl.removeDevice
  rw [if_pos h]

theorem removeDevice_snd_of_not_mem (device : Nat) (m : Freenect2Impl)
    (h : device ∉ m.devices_) :
    (m.removeDevice device).2 = [SysEvent.message Message.removeDevice_not_in_list] := by
  unfold Freenect2Impl.removeDevice
  rw [if_neg h]

theorem inv_deleteDevice (p : Nat) (w w1 : World) (t : List SysEvent)
    (h : w.deleteDevice p = some (w1, t)) (hw : w.Inv) : w1.Inv := by
  unfold World.deleteDevice at h
  cases hd : derefDevice w.heap p with
  | none => simp [hd] at h
  | some d =>
    simp only [hd, removeDevice_fst, Option.some.injEq, Prod.mk.injEq] at h
    obtain ⟨rfl, -⟩ := h
    have hp := derefDevice_lt _ _ _ hd
    have hmem : ∀ q, q ∈ w.impl_.devices_.erase p ↔ q ≠ p ∧ q ∈ w.impl_.devices_ :=
      fun q => hw.nodup.mem_erase_iff
    refine ⟨hw.nodup.erase p, ?_, ?_, ?_, ?_⟩
    · intro q hq
      obtain ⟨hqp, hq1⟩ := (hmem q).1 hq
      obtain ⟨dq, hdq⟩ := hw.live q hq1
      exact ⟨dq, by simpa only [derefDevice_set_ne _ _ _ _ hqp] using hdq⟩
    · intro q dq hdq
      by_cases hqp : q = p
      · subst hqp
        simp [derefDevice_set_self _ _ _ hp] at hdq
      · simp only [derefDevice_set_ne _ _ _ _ hqp] at hdq
        exact (hmem q).2 ⟨hqp, hw.registered q dq hdq⟩
    · intro q dq hdq
      by_cases hqp : q = p
      · subst hqp
        simp [derefDevice_set_self _ _ _ hp] at hdq
      · simp only [derefDevice_set_ne _ _ _ _ hqp] at hdq
        exact hw.opened q dq hdq
    · intro a ha b hb hab da db hda hdb u hu
      obtain ⟨hap, ha1⟩ := (hmem a).1 ha
      obtain ⟨hbp, hb1⟩ := (hmem b).1 hb
      simp only [derefDevice_set_ne _ _ _ _ hap] at hda
      simp only [derefDevice_set_ne _ _ _ _ hbp] at hdb
      exact hw.unique a ha1 b hb1 hab da db hda hdb u hu

theorem derefDevice_length (heap : List (Option Freenect2DeviceImpl)) :
    derefDevice heap heap.length = none := by
  cases h : derefDevice heap heap.length with
  | none => rfl
  | some d => exact absurd (derefDevice_lt _ _ _ h) (lt_irrefl _)

theorem derefDevice_append_set (heap : List (Option Freenect2DeviceImpl))
    (x : Option Freenect2DeviceImpl) (q : Nat) :
    derefDevice ((heap ++ [x]).set heap.length none) q = derefDevice heap q := by
  by_cases hq : q = heap.length
  · subst hq
    rw [derefDevice_set_self _ _ _ (by simp), derefDevice_length]
  · rw [derefDevice_set_ne _ _ _ _ hq]
    by_cases hlt : q < heap.length
    · exact derefDevice_append_lt _ _ _ hlt
    · cases h1 : derefDevice (heap ++ [x]) q with
      | none =>
        cases h2 : derefDevice heap q with
        | none => rfl
        | some d => exact absurd (derefDevice_lt _ _ _ h2) hlt
      | some d =>
        have := derefDevice_lt _ _ _ h1
        simp at this
        omega

theorem length_not_mem_devices (w : World) (hw : w.Inv) : w.heap.length ∉ w.impl_.devices_ := by
  intro h
  obtain ⟨d, hd⟩ := hw.live _ h
  exact absurd (derefDevice_lt _ _ _ hd) (lt_irrefl _)

/-- The possible outcomes of `openDevice(idx)` in a state that satisfies the
invariant: either the registry and the live device objects are what they were
(and a returned pointer is a registered one), or a device for the candidate
`dev`, which no registered device recognised, was constructed at the next free
address, registered and opened. -/
theorem openDevice_cases (idx : Int) (env : OpenDeviceEnv) (w w1 : World) (r : Option Nat)
    (t : List SysEvent) (h : Freenect2.openDevice idx env w = some (r, w1, t)) (hw : w.Inv) :
    (w1.impl_.devices_ = w.impl_.devices_ ∧
        (∀ q, derefDevice w1.heap q = derefDevice w.heap q) ∧
        (∀ p, r = some p → p ∈ w.impl_.devices_)) ∨
    (∃ dev d1, r = some w.heap.length ∧
        w1.impl_.devices_ = w.impl_.devices_ ++ [w.heap.length] ∧
        w1.heap = w.heap ++ [some d1] ∧ d1.state_ = State.Open ∧ d1.usb_device_ = some dev ∧
        tryGetDeviceLoop w.heap dev w.impl_.devices_ = some none) := by
  unfold Freenect2.openDevice at h
  simp only [] at h
  by_cases hidx : idx < (w.impl_.getNumDevices env.bus).1
  · rw [if_pos hidx] at h
    cases hdev : (w.impl_.getNumDevices env.bus).2.1.enumerated_devices_[toSizeT idx]? with
    | none => simp [hdev] at h
    | some dev =>
      simp only [hdev, Freenect2Impl.tryGetDevice, getNumDevices_devices] at h
      cases htry : tryGetDeviceLoop w.heap dev w.impl_.devices_ with
      | none => simp [htry] at h
      | some found =>
        cases found with
        | some p =>
          simp only [htry, Option.some.injEq, Prod.mk.injEq] at h
          obtain ⟨rfl, rfl, -⟩ := h
          left
          refine ⟨getNumDevices_devices _ _, fun q => rfl, ?_⟩
          intro p1 hp1
          cases hp1
          exact (tryGetDeviceLoop_some _ _ _ _ htry).1
        | none =>
          simp only [htry] at h
          cases hopen : ((Freenect2DeviceImpl.new (some dev) env.dev_handle).open
              env.open_env).1 with
          | true =>
            simp only [hopen, if_true, Option.some.injEq, Prod.mk.injEq] at h
            obtain ⟨rfl, rfl, -⟩ := h
            right
            refine ⟨dev, _, rfl, ?_, rfl, open_state_of_true _ _ hopen, ?_, htry⟩
            · simp [Freenect2Impl.addDevice, getNumDevices_devices]
            · rw [(open_fields _ _).1]
              rfl
          | false =>
            simp only [hopen, World.deleteDevice, derefDevice_append_length] at h
            simp only [Bool.false_eq_true, if_false, Option.some.injEq, Prod.mk.injEq] at h
            obtain ⟨rfl, rfl, -⟩ := h
            left
            refine ⟨?_, fun q => derefDevice_append_set _ _ q, fun p hp => by cases hp⟩
            simp only [removeDevice_fst, Freenect2Impl.addDevice, getNumDevices_devices]
            rw [List.erase_append_right _ (length_not_mem_devices w hw)]
            simp
  · rw [if_neg hidx] at h
    simp only [Option.some.injEq, Prod.mk.injEq] at h
    obtain ⟨rfl, rfl, -⟩ := h
    left
    exact ⟨getNumDevices_devices _ _, fun q => rfl, fun p hp => by cases hp⟩

theorem isSameUsbDevice_congr (d : Freenect2DeviceImpl) (u v : UsbDevice)
    (hb : toUChar u.bus_number = toUChar v.bus_number)
    (hp : toUChar u.port_number = toUChar v.port_number) :
    d.isSameUsbDevice u = d.isSameUsbDevice v := by
  simp [Freenect2DeviceImpl.isSameUsbDevice, hb, hp]

/-- A device that was constructed for `dev` and a device that does not recognise
`dev` never recognise the same USB device. -/
theorem isSameUsbDevice_disjoint (d1 dq : Freenect2DeviceImpl) (dev u : UsbDevice)
    (h1 : d1.usb_device_ = some dev) (hq : dq.isSameUsbDevice dev = false)
    (hu : d1.isSameUsbDevice u = true) : dq.isSameUsbDevice u = false := by
  obtain ⟨-, dev1, hd, hb, hp⟩ := (isSameUsbDevice_iff d1 u).1 hu
  rw [h1] at hd
  cases hd
  rw [← isSameUsbDevice_congr dq dev u hb hp]
  exact hq

theorem inv_openDevice (idx : Int) (env : OpenDeviceEnv) (w w1 : World) (r : Option Nat)
    (t : List SysEvent) (h : Freenect2.openDevice idx env w = some (r, w1, t)) (hw : w.Inv) :
    w1.Inv := by
  rcases openDevice_cases idx env w w1 r t h hw with ⟨hdev, hheap, -⟩ |
    ⟨dev, d1, -, hdev, hheap, hstate, husb, htry⟩
  · refine inv_of_refines w w1 hdev ?_ ?_ hw
    · intro q y hy
      exact ⟨y, by rwa [hheap] at hy, fun _ h => h, fun h => h⟩
    · intro q y hy
      exact ⟨y, by rwa [hheap]⟩
  · have hnot := length_not_mem_devices w hw
    have hnone := tryGetDeviceLoop_none _ _ _ htry
    have hold : ∀ q ∈ w.impl_.devices_, derefDevice w1.heap q = derefDevice w.heap q := by
      intro q hq
      obtain ⟨d, hd⟩ := hw.live q hq
      rw [hheap]
      exact derefDevice_append_lt _ _ _ (derefDevice_lt _ _ _ hd)
    have hnew : derefDevice w1.heap w.heap.length = some d1 := by
      rw [hheap]
      exact derefDevice_append_length _ _
    refine ⟨?_, ?_, ?_, ?_, ?_⟩
    · rw [hdev]
      exact List.Nodup.append hw.nodup (List.nodup_singleton _)
        (by
          intro a ha hb
          simp only [List.mem_singleton] at hb
          subst hb
          exact hnot ha)
    · intro p hp
      rw [hdev] at hp
      rcases List.mem_append.1 hp with hp | hp
      · rw [hold p hp]
        exact hw.live p hp
      · simp only [List.mem_singleton] at hp
        subst hp
        exact ⟨d1, hnew⟩
    · intro p d hd
      rw [hdev]
      rw [hheap] at hd
      rcases derefDevice_append_some _ _ _ _ hd with h0 | ⟨rfl, -⟩
      · exact List.mem_append_left _ (hw.registered p d h0)
      · simp
    · intro p d hd
      rw [hheap] at hd
      rcases derefDevice_append_some _ _ _ _ hd with h0 | ⟨-, h1⟩
      · exact hw.opened p d h0
      · cases h1
        rw [hstate]
        decide
    · intro p hp q hq hpq dp dq hdp hdq u hu
      rw [hdev] at hp hq
      rcases List.mem_append.1 hp with hp | hp <;> rcases List.mem_append.1 hq with hq | hq
      · rw [hold p hp] at hdp
        rw [hold q hq] at hdq
        exact hw.unique p hp q hq hpq dp dq hdp hdq u hu
      · simp only [List.mem_singleton] at hq
        subst hq
        rw [hold p hp] at hdp
        rw [hnew] at hdq
        have e : d1 = dq := Option.some.inj hdq
        rw [← e]
        cases hq1 : d1.isSameUsbDevice u with
        | false => rfl
        | true =>
          have := isSameUsbDevice_disjoint d1 dp dev u husb (hnone p hp dp hdp) hq1
          rw [hu] at this
          cases this
      · simp only [List.mem_singleton] at hp
        subst hp
        rw [hold q hq] at hdq
        rw [hnew] at hdp
        have e : d1 = dp := Option.some.inj hdp
        rw [← e] at hu
        exact isSameUsbDevice_disjoint d1 dq dev u husb (hnone q hq dq hdq) hu
      · simp only [List.mem_singleton] at hp hq
        exact absurd (hp.trans hq.symm) hpq

theorem inv_step (w w1 : World) (c : Call) (t : List SysEvent)
    (h : w.step c = some (w1, t)) (hw : w.Inv) : w1.Inv := by
  cases c with
  | enumerateDevices bus =>
    simp only [World.step, Option.some.injEq, Prod.mk.injEq] at h
    obtain ⟨rfl, -⟩ := h
    refine inv_of_refines w _ ?_ ?_ ?_ hw
    · simp [Freenect2.enumerateDevices, getNumDevices_devices,
        Freenect2Impl.clearDeviceEnumeration]
    · intro q y hy
      exact ⟨y, hy, fun _ h => h, fun h => h⟩
    · intro q y hy
      exact ⟨y, hy⟩
  | openDevice idx env =>
    simp only [World.step] at h
    cases ho : Freenect2.openDevice idx env w with
    | none => simp [ho] at h
    | some x =>
      obtain ⟨r, w2, t2⟩ := x
      simp only [ho, Option.map_some', Option.some.injEq, Prod.mk.injEq] at h
      obtain ⟨rfl, -⟩ := h
      exact inv_openDevice idx env w w2 r t2 ho hw
  | openDefaultDevice env =>
    simp only [World.step, Freenect2.openDefaultDevice] at h
    cases ho : Freenect2.openDevice 0 env w with
    | none => simp [ho] at h
    | some x =>
      obtain ⟨r, w2, t2⟩ := x
      simp only [ho, Option.map_some', Option.some.injEq, Prod.mk.injEq] at h
      obtain ⟨rfl, -⟩ := h
      exact inv_openDevice 0 env w w2 r t2 ho hw
  | setColorFrameListener p l =>
    exact inv_callDevice _ (benign_setColorFrameListener l) p w w1 t h hw
  | setIrAndDepthFrameListener p l =>
    exact inv_callDevice _ (benign_setIrAndDepthFrameListener l) p w w1 t h hw
  | start p => exact inv_callDevice _ benign_start p w w1 t h hw
  | stop p => exact inv_callDevice _ benign_stop p w w1 t h hw
  | close p => exact inv_callDevice _ benign_close p w w1 t h hw
  | destroy p => exact inv_deleteDevice p w w1 t h hw

theorem reachable_inv (w : World) (h : Reachable w) : w.Inv := by
  induction h with
  | init => exact inv_init
  | step w c w1 t _ hstep ih => exact inv_step w w1 c t hstep ih

theorem reachable_run (cs : List Call) (w w1 : World) (t : List SysEvent)
    (hw : Reachable w) (h : World.run cs w = some (w1, t)) : Reachable w1 := by
  induction cs generalizing w t with
  | nil =>
    simp only [World.run, Option.some.injEq, Prod.mk.injEq] at h
    rw [← h.1]
    exact hw
  | cons c cs ih =>
    unfold World.run at h
    cases hs : w.step c with
    | none => simp [hs] at h
    | some x =>
      simp only [hs] at h
      cases hr : World.run cs x.1 with
      | none => simp [hr] at h
      | some y =>
        simp only [hr, Option.some.injEq, Prod.mk.injEq] at h
        obtain ⟨y1, y2⟩ := y
        have e : y1 = w1 := h.1
        subst e
        exact ih x.1 y2 (Reachable.step w c x.1 x.2 hw hs) hr

theorem reachable_runD (cs : List Call) (w : World) (hw : Reachable w) :
    Reachable (World.runD cs w) := by
  unfold World.runD
  cases h : World.run cs w with
  | none => exact hw
  | some x => exact reachable_run cs w x.1 x.2 hw h

/-- C3: in every state reachable through the public calls (`enumerateDevices`,
`openDevice`, `openDefaultDevice`, the listener setters, `start`, `stop`, `close`
and `delete` of a device), two different entries of the registry never refer to
devices that are both not `Closed` and sit on the same bus number and port
number. -/
theorem one_live_device_per_port (w : World) (hw : Reachable w) (i j p q : Nat)
    (dp dq : Freenect2DeviceImpl) (u v : UsbDevice) (hij : i ≠ j)
    (hp : w.impl_.devices_[i]? = some p) (hq : w.impl_.devices_[j]? = some q)
    (hdp : derefDevice w.heap p = some dp) (hdq : derefDevice w.heap q = some dq)
    (hsp : dp.state_ ≠ State.Closed) (hsq : dq.state_ ≠ State.Closed)
    (hup : dp.usb_device_ = some u) (huq : dq.usb_device_ = some v) :
    ¬ (u.bus_number = v.bus_number ∧ u.port_number = v.port_number) := by
  intro hsame
  have hinv := reachable_inv w hw
  obtain ⟨hi, hpi⟩ := List.getElem?_eq_some_iff.1 hp
  obtain ⟨hj, hqj⟩ := List.getElem?_eq_some_iff.1 hq
  have hpq : p ≠ q := by
    intro e
    apply hij
    rw [← hpi, ← hqj] at e
    exact (List.Nodup.getElem_inj_iff hinv.nodup).1 e
  have hpm : p ∈ w.impl_.devices_ := hpi ▸ List.getElem_mem hi
  have hqm : q ∈ w.impl_.devices_ := hqj ▸ List.getElem_mem hj
  have h1 : dp.isSameUsbDevice u = true :=
    (isSameUsbDevice_iff dp u).2 ⟨hsp, u, hup, rfl, rfl⟩
  have h2 : dq.isSameUsbDevice u = true :=
    (isSameUsbDevice_iff dq u).2 ⟨hsq, v, huq, by rw [hsame.1], by rw [hsame.2]⟩
  have h3 := hinv.unique p hpm q hqm hpq dp dq hdp hdq u h1
  rw [h2] at h3
  cases h3

theorem one_live_device_per_port_witness :
    (World.runD [Call.openDevice 0 (busEnv [kinect, kinect2] okOpenEnv),
        Call.openDevice 1 (busEnv [] okOpenEnv), Call.start 0] World.init).impl_.devices_
      = [0, 1] ∧
    ¬ (kinect.bus_number = kinect2.bus_number ∧ kinect.port_number = kinect2.port_number) :=
  ⟨by decide,
   one_live_device_per_port
    (World.runD [Call.openDevice 0 (busEnv [kinect, kinect2] okOpenEnv),
        Call.openDevice 1 (busEnv [] okOpenEnv), Call.start 0] World.init)
    (reachable_runD _ _ Reachable.init) 0 1 0 1
    ⟨State.Streaming, true, some kinect, some 7, 10, none, none⟩
    ⟨State.Open, true, some kinect2, some 7, 0, none, none⟩
    kinect kinect2 (by decide) (by decide) (by decide) (by decide) (by decide)
    (by decide) (by decide) (by decide) (by decide)⟩

/-! ### openDevice -/

theorem tryGetDeviceLoop_absent (heap : List (Option Freenect2DeviceImpl)) (u : UsbDevice)
    (l : List Nat) (hlive : ∀ q ∈ l, ∃ dq, derefDevice heap q = some dq)
    (hnone : ∀ q ∈ l, ∀ dq, derefDevice heap q = some dq → dq.isSameUsbDevice u = false) :
    tryGetDeviceLoop heap u l = some none := by
  induction l with
  | nil => rfl
  | cons a l ih =>
    unfold tryGetDeviceLoop
    obtain ⟨da, hda⟩ := hlive a (List.mem_cons_self _ _)
    have h1 := hnone a (List.mem_cons_self _ _) da hda
    simp only [hda, h1]
    simpa using ih (fun q hq => hlive q (List.mem_cons_of_mem _ hq))
      (fun q hq => hnone q (List.mem_cons_of_mem _ hq))

theorem openDevice_found (w : World) (hw : w.Inv) (idx : Int) (env : OpenDeviceEnv)
    (dev : UsbDevice) (p : Nat) (d : Freenect2DeviceImpl)
    (hlt : idx < (w.impl_.getNumDevices env.bus).1)
    (hread : (w.impl_.getNumDevices env.bus).2.1.enumerated_devices_[toSizeT idx]? = some dev)
    (hp : p ∈ w.impl_.devices_) (hd : derefDevice w.heap p = some d)
    (hs : d.isSameUsbDevice dev = true) :
    Freenect2.openDevice idx env w
      = some (some p, { w with impl_ := (w.impl_.getNumDevices env.bus).2.1 },
          (w.impl_.getNumDevices env.bus).2.2) := by
  have hfound := tryGetDeviceLoop_found w.heap dev w.impl_.devices_ p d hp hd hs hw.live
    (fun q hq hqp dq hdq => hw.unique p hp q hq (Ne.symm hqp) d dq hd hdq dev hs)
  unfold Freenect2.openDevice
  simp only [hlt, if_true, hread, Freenect2Impl.tryGetDevice, getNumDevices_devices, hfound]

theorem openDevice_new_fail (w : World) (hw : w.Inv) (idx : Int) (env : OpenDeviceEnv)
    (dev : UsbDevice) (hlt : idx < (w.impl_.getNumDevices env.bus).1)
    (hread : (w.impl_.getNumDevices env.bus).2.1.enumerated_devices_[toSizeT idx]? = some dev)
    (hnone : ∀ q ∈ w.impl_.devices_, ∀ dq, derefDevice w.heap q = some dq →
      dq.isSameUsbDevice dev = false)
    (hfail : ((Freenect2DeviceImpl.new (some dev) env.dev_handle).open env.open_env).1 = false) :
    Freenect2.openDevice idx env w
      = some (none,
          { impl_ := (((w.impl_.getNumDevices env.bus).2.1.addDevice
              w.heap.length).removeDevice w.heap.length).1,
            heap := (w.heap ++ [some ((Freenect2DeviceImpl.new (some dev) env.dev_handle).open
              env.open_env).2.1]).set w.heap.length none },
          ((w.impl_.getNumDevices env.bus).2.2
            ++ [SysEvent.libusb_open dev, SysEvent.construct w.heap.length]
            ++ (Freenect2DeviceImpl.ctorEvents
                ++ ((Freenect2DeviceImpl.new (some dev) env.dev_handle).open
                      env.open_env).2.2).map (SysEvent.device w.heap.length))
            ++ ((((Freenect2DeviceImpl.new (some dev) env.dev_handle).open
                    env.open_env).2.1.close.2).map (SysEvent.device w.heap.length)
                ++ [SysEvent.destroy w.heap.length])) := by
  have habs := tryGetDeviceLoop_absent w.heap dev w.impl_.devices_ hw.live hnone
  unfold Freenect2.openDevice
  have hreg : w.heap.length
      ∈ ((w.impl_.getNumDevices env.bus).2.1.addDevice w.heap.length).devices_ := by
    simp [Freenect2Impl.addDevice]
  simp only [hlt, if_true, hread, Freenect2Impl.tryGetDevice, getNumDevices_devices, habs,
    hfail, World.deleteDevice, derefDevice_append_length, Bool.false_eq_true, if_false,
    removeDevice_snd_of_mem _ _ hreg, List.append_nil]

theorem open_close_count (env : OpenEnv) (d : Freenect2DeviceImpl) :
    (d.open env).2.2.countP Event.isLibusbClose = 0 := by
  simp only [Freenect2DeviceImpl.open]
  by_cases h0 : d.state_ ≠ State.Created
  · rw [if_pos h0]; rfl
  rw [if_neg h0]
  by_cases h1 : env.setConfiguration ≠ UsbControl.ResultCode.Success
  · rw [if_pos h1]; rfl
  rw [if_neg h1]
  by_cases h2 : (!d.has_usb_interfaces_
      && env.claimInterfaces != UsbControl.ResultCode.Success) = true
  · rw [if_pos h2]; cases d.has_usb_interfaces_ <;> rfl
  rw [if_neg h2]
  by_cases h3 : env.setIsochronousDelay ≠ UsbControl.ResultCode.Success
  · rw [if_pos h3]; cases d.has_usb_interfaces_ <;> rfl
  rw [if_neg h3]
  by_cases h4 : env.setIrInterfaceState ≠ UsbControl.ResultCode.Success
  · rw [if_pos h4]; cases d.has_usb_interfaces_ <;> rfl
  rw [if_neg h4]
  by_cases h5 : env.enablePowerStates ≠ UsbControl.ResultCode.Success
  · rw [if_pos h5]; cases d.has_usb_interfaces_ <;> rfl
  rw [if_neg h5]
  by_cases h6 : env.setVideoTransferFunctionState ≠ UsbControl.ResultCode.Success
  · rw [if_pos h6]; cases d.has_usb_interfaces_ <;> rfl
  rw [if_neg h6]
  by_cases h7 : toSizeT env.max_iso_packet_size < 33792
  · rw [if_pos h7]; cases d.has_usb_interfaces_ <;> rfl
  rw [if_neg h7]
  cases d.has_usb_interfaces_ <;> rfl

theorem stop_close_count (d : Freenect2DeviceImpl) :
    d.stop.2.countP Event.isLibusbClose = 0 := by
  unfold Freenect2DeviceImpl.stop
  split <;> rfl

/-- From a state other than `Closed`, `close()` calls `libusb_close` exactly once,
as its last external call and on the handle the device holds. -/
theorem close_close_count (d : Freenect2DeviceImpl) (h : d.state_ ≠ State.Closed) :
    d.close.2.countP Event.isLibusbClose = 1 ∧
      Event.libusb_close d.usb_device_handle_ ∈ d.close.2 := by
  by_cases hs : d.state_ = State.Streaming
  · have h1 : d.stop.1.usb_device_handle_ = d.usb_device_handle_ := by
      simp [Freenect2DeviceImpl.stop, hs, Freenect2DeviceImpl.nextCommandSeq]
    have h2 := stop_close_count d
    simp only [Freenect2DeviceImpl.close, h, hs, if_true, if_false]
    by_cases hh : d.stop.1.has_usb_interfaces_ = true
    · simp [hh, List.countP_append, h2, h1, List.countP_cons, Event.isLibusbClose]
    · simp [hh, List.countP_append, h2, h1, List.countP_cons, Event.isLibusbClose]
  · simp only [Freenect2DeviceImpl.close, h, hs, if_false]
    by_cases hh : d.has_usb_interfaces_ = true
    · simp [hh, List.countP_cons, Event.isLibusbClose]
    · simp [hh, List.countP_cons, Event.isLibusbClose]

theorem isCloseOf_of_isEnumeration (p : Nat) (e : SysEvent) (h : e.isEnumeration = true) :
    SysEvent.isCloseOf p e = false := by
  cases e <;> simp_all [SysEvent.isEnumeration, SysEvent.isCloseOf]

theorem countP_isCloseOf_device (p : Nat) (l : List Event) :
    (l.map (SysEvent.device p)).countP (SysEvent.isCloseOf p) = l.countP Event.isLibusbClose := by
  rw [List.countP_map]
  congr 1
  funext e
  simp [SysEvent.isCloseOf]

/-- C4: in a reachable state, when `openDevice(idx)` reads a candidate that no
registered device recognises (so a new device is constructed) and that device's
`open()` fails, `openDevice` returns the null pointer; the registry is what it
was before the call and so are the live device objects (the new object, at the
address `w.heap.length`, is gone again); the new device was constructed and
destroyed, and it called `libusb_close` exactly once, on the handle
`libusb_open` had stored. -/
theorem openDevice_open_failure (w : World) (hw : Reachable w) (idx : Int)
    (env : OpenDeviceEnv) (dev : UsbDevice)
    (hlt : idx < (w.impl_.getNumDevices env.bus).1)
    (hread : (w.impl_.getNumDevices env.bus).2.1.enumerated_devices_[toSizeT idx]? = some dev)
    (hnone : ∀ q ∈ w.impl_.devices_, ∀ dq, derefDevice w.heap q = some dq →
      dq.isSameUsbDevice dev = false)
    (hfail : ((Freenect2DeviceImpl.new (some dev) env.dev_handle).open env.open_env).1 = false) :
    ∃ (w1 : World) (t : List SysEvent),
      Freenect2.openDevice idx env w = some (none, w1, t) ∧
      w1.impl_.devices_ = w.impl_.devices_ ∧
      (∀ q, derefDevice w1.heap q = derefDevice w.heap q) ∧
      derefDevice w1.heap w.heap.length = none ∧
      SysEvent.libusb_open dev ∈ t ∧
      SysEvent.construct w.heap.length ∈ t ∧
      SysEvent.destroy w.heap.length ∈ t ∧
      SysEvent.device w.heap.length (Event.libusb_close env.dev_handle) ∈ t ∧
      t.countP (SysEvent.isCloseOf w.heap.length) = 1 := by
  have hinv := reachable_inv w hw
  have hst : ((Freenect2DeviceImpl.new (some dev) env.dev_handle).open env.open_env).2.1.state_
      ≠ State.Closed := by
    rw [open_state_of_false _ _ hfail]
    simp [Freenect2DeviceImpl.new]
  have hh : ((Freenect2DeviceImpl.new (some dev) env.dev_handle).open
      env.open_env).2.1.usb_device_handle_ = env.dev_handle := (open_fields _ _).2.1
  obtain ⟨hc1, hc2⟩ := close_close_count _ hst
  rw [hh] at hc2
  refine ⟨_, _, openDevice_new_fail w hinv idx env dev hlt hread hnone hfail, ?_,
    fun q => derefDevice_append_set _ _ q, ?_, ?_, ?_, ?_, ?_, ?_⟩
  · simp only [removeDevice_fst, Freenect2Impl.addDevice, getNumDevices_devices]
    rw [List.erase_append_right _ (length_not_mem_devices w hinv)]
    simp
  · rw [derefDevice_append_set, derefDevice_length]
  · simp
  · simp
  · simp
  · simp only [List.mem_append, List.mem_map]
    exact Or.inr (Or.inl ⟨_, hc2, rfl⟩)
  · have hg : (w.impl_.getNumDevices env.bus).2.2.countP (SysEvent.isCloseOf w.heap.length)
        = 0 := by
      rw [List.countP_eq_zero]
      intro e he
      simp [isCloseOf_of_isEnumeration _ e (getNumDevices_events _ _ e he)]
    have hctor : Freenect2DeviceImpl.ctorEvents.countP Event.isLibusbClose = 0 := by decide
    simp only [List.countP_append, countP_isCloseOf_device, hg, hc1, open_close_count,
      hctor, List.countP_cons, List.countP_nil, SysEvent.isCloseOf]
    simp

theorem openDevice_open_failure_witness :
    ∃ (w1 : World) (t : List SysEvent),
      Freenect2.openDevice 0 (busEnv [kinect] failOpenEnv) World.init = some (none, w1, t) ∧
      w1.impl_.devices_ = World.init.impl_.devices_ ∧
      (∀ q, derefDevice w1.heap q = derefDevice World.init.heap q) ∧
      derefDevice w1.heap World.init.heap.length = none ∧
      SysEvent.libusb_open kinect ∈ t ∧
      SysEvent.construct World.init.heap.length ∈ t ∧
      SysEvent.destroy World.init.heap.length ∈ t ∧
      SysEvent.device World.init.heap.length
        (Event.libusb_close (busEnv [kinect] failOpenEnv).dev_handle) ∈ t ∧
      t.countP (SysEvent.isCloseOf World.init.heap.length) = 1 :=
  openDevice_open_failure World.init Reachable.init 0 (busEnv [kinect] failOpenEnv) kinect
    (by decide) (by decide)
    (by intro q hq; simp [World.init, Freenect2Impl.new] at hq) (by decide)

/-- What a successful `openDevice(idx)` leaves behind: the candidate `dev` it read
is still at that index of the (now valid) candidate list, and the returned
pointer is registered and refers to a device that recognises `dev`. -/
theorem openDevice_some (w : World) (idx : Int) (env : OpenDeviceEnv)
    (p : Nat) (w1 : World) (t : List SysEvent)
    (h : Freenect2.openDevice idx env w = some (some p, w1, t)) :
    ∃ dev d, w1.impl_.has_device_enumeration_ = true ∧
      idx < (w1.impl_.enumerated_devices_.length : Int) ∧
      w1.impl_.enumerated_devices_[toSizeT idx]? = some dev ∧
      p ∈ w1.impl_.devices_ ∧ derefDevice w1.heap p = some d ∧
      d.isSameUsbDevice dev = true := by
  unfold Freenect2.openDevice at h
  simp only [] at h
  by_cases hidx : idx < (w.impl_.getNumDevices env.bus).1
  · rw [if_pos hidx] at h
    rw [getNumDevices_count] at hidx
    cases hdev : (w.impl_.getNumDevices env.bus).2.1.enumerated_devices_[toSizeT idx]? with
    | none => simp [hdev] at h
    | some dev =>
      simp only [hdev, Freenect2Impl.tryGetDevice, getNumDevices_devices] at h
      cases htry : tryGetDeviceLoop w.heap dev w.impl_.devices_ with
      | none => simp [htry] at h
      | some found =>
        cases found with
        | some p1 =>
          simp only [htry, Option.some.injEq, Prod.mk.injEq] at h
          obtain ⟨rfl, rfl, -⟩ := h
          obtain ⟨hm, d, hd, hs⟩ := tryGetDeviceLoop_some _ _ _ _ htry
          exact ⟨dev, d, getNumDevices_flag _ _, hidx, hdev,
            by rw [getNumDevices_devices]; exact hm, hd, hs⟩
        | none =>
          simp only [htry] at h
          cases hopen : ((Freenect2DeviceImpl.new (some dev) env.dev_handle).open
              env.open_env).1 with
          | true =>
            simp only [hopen, if_true, Option.some.injEq, Prod.mk.injEq] at h
            obtain ⟨rfl, rfl, -⟩ := h
            refine ⟨dev, _, getNumDevices_flag _ _, hidx, hdev, ?_,
              derefDevice_append_length _ _, ?_⟩
            · simp [Freenect2Impl.addDevice]
            · rw [isSameUsbDevice_iff]
              refine ⟨?_, dev, ?_, rfl, rfl⟩
              · rw [open_state_of_true _ _ hopen]
                decide
              · rw [(open_fields _ _).1]
                rfl
          | false =>
            simp only [hopen, World.deleteDevice, derefDevice_append_length] at h
            simp at h
  · rw [if_neg hidx] at h
    simp at h

/-- C2 (amended): in a reachable state, when `openDevice(idx)` reads the candidate
`dev` and the registry holds a device that is not `Closed` and sits on the same
bus number and port number, `openDevice(idx)` returns that device, leaves the
registry and the device objects unchanged, and its only external calls are those
of the enumeration it runs when there is none yet (no USB handle is opened, no
device is constructed). In particular, after an `openDevice(idx)` that returned a
device, the next `openDevice(idx)` returns the same pointer, changes nothing and
makes no external call. -/
theorem openDevice_existing (w : World) (hw : Reachable w) (idx : Int) (env : OpenDeviceEnv) :
    (∀ (dev u : UsbDevice) (p : Nat) (d : Freenect2DeviceImpl),
      idx < (w.impl_.getNumDevices env.bus).1 →
      (w.impl_.getNumDevices env.bus).2.1.enumerated_devices_[toSizeT idx]? = some dev →
      p ∈ w.impl_.devices_ → derefDevice w.heap p = some d →
      d.state_ ≠ State.Closed → d.usb_device_ = some u →
      u.bus_number = dev.bus_number → u.port_number = dev.port_number →
      ∃ (w1 : World) (t : List SysEvent),
        Freenect2.openDevice idx env w = some (some p, w1, t) ∧
        w1.impl_.devices_ = w.impl_.devices_ ∧ w1.heap = w.heap ∧
        ∀ e ∈ t, e.isEnumeration = true) ∧
    (∀ (p : Nat) (w1 : World) (t : List SysEvent) (env2 : OpenDeviceEnv),
      Freenect2.openDevice idx env w = some (some p, w1, t) →
      Freenect2.openDevice idx env2 w1 = some (some p, w1, [])) := by
  have hinv := reachable_inv w hw
  constructor
  · intro dev u p d hlt hread hp hd hs hu hbus hport
    have hsame : d.isSameUsbDevice dev = true :=
      (isSameUsbDevice_iff d dev).2 ⟨hs, u, hu, by rw [hbus], by rw [hport]⟩
    exact ⟨_, _, openDevice_found w hinv idx env dev p d hlt hread hp hd hsame,
      getNumDevices_devices _ _, rfl, getNumDevices_events _ _⟩
  · intro p w1 t env2 h
    have hinv1 := inv_openDevice idx env w w1 (some p) t h hinv
    obtain ⟨dev, d, hflag, hlt, hread, hp, hd, hs⟩ := openDevice_some w idx env p w1 t h
    have hg := getNumDevices_of_flag env2.bus w1.impl_ hflag
    have h2 := openDevice_found w1 hinv1 idx env2 dev p d (by rw [hg]; exact hlt)
      (by rw [hg]; exact hread) hp hd hs
    rw [h2, hg]

theorem openDevice_existing_witness :
    (∃ (w1 : World) (t : List SysEvent),
      Freenect2.openDevice 0 (busEnv [] okOpenEnv)
          (World.runD [Call.openDevice 0 (busEnv [kinect] okOpenEnv), Call.start 0] World.init)
        = some (some 0, w1, t) ∧
      w1.impl_.devices_
        = (World.runD [Call.openDevice 0 (busEnv [kinect] okOpenEnv), Call.start 0]
            World.init).impl_.devices_ ∧
      w1.heap
        = (World.runD [Call.openDevice 0 (busEnv [kinect] okOpenEnv), Call.start 0]
            World.init).heap ∧
      ∀ e ∈ t, e.isEnumeration = true) ∧
    Freenect2.openDevice 0 (busEnv [] okOpenEnv)
        (World.runD [Call.openDevice 0 (busEnv [kinect] okOpenEnv)] World.init)
      = some (some 0, World.runD [Call.openDevice 0 (busEnv [kinect] okOpenEnv)] World.init,
          []) :=
  ⟨(openDevice_existing
      (World.runD [Call.openDevice 0 (busEnv [kinect] okOpenEnv), Call.start 0] World.init)
      (reachable_runD _ _ Reachable.init) 0 (busEnv [] okOpenEnv)).1 kinect kinect 0
      ⟨State.Streaming, true, some kinect, some 7, 10, none, none⟩
      (by decide) (by decide) (by decide) (by decide) (by decide) (by decide) rfl rfl,
   (openDevice_existing World.init Reachable.init 0 (busEnv [kinect] okOpenEnv)).2 0
      (World.runD [Call.openDevice 0 (busEnv [kinect] okOpenEnv)] World.init)
      ((Freenect2.openDevice 0 (busEnv [kinect] okOpenEnv) World.init).elim []
        (fun r => r.2.2))
      (busEnv [] okOpenEnv) (by decide)⟩

/-- C2 (as stated, refuted): a device that was opened for a port and then closed
stays in the registry, but `isSameUsbDevice` does not recognise anything once the
state is `Closed`. After `openDevice(0)` (device 0, for the Kinect on bus 1,
port 2) and `close()` on it, the registry still holds device 0, yet
`openDevice(0)` opens a USB handle again, constructs device 1 and returns it; the
registry then has two entries. -/
theorem openDevice_after_close_constructs :
    (World.runD [Call.openDevice 0 (busEnv [kinect] okOpenEnv)] World.init).impl_.devices_
      = [0] ∧
    (derefDevice (World.runD [Call.openDevice 0 (busEnv [kinect] okOpenEnv)] World.init).heap
      0).map (fun d => (d.state_, d.usb_device_)) = some (State.Open, some kinect) ∧
    (World.runD [Call.openDevice 0 (busEnv [kinect] okOpenEnv), Call.close 0]
      World.init).impl_.devices_ = [0] ∧
    (World.runD [Call.openDevice 0 (busEnv [kinect] okOpenEnv), Call.close 0]
      World.init).impl_.enumerated_devices_ = [kinect] ∧
    (Freenect2.openDevice 0 (busEnv [kinect] okOpenEnv)
      (World.runD [Call.openDevice 0 (busEnv [kinect] okOpenEnv), Call.close 0]
        World.init)).map
      (fun r => (r.1, r.2.1.impl_.devices_, r.2.2.take 2))
      = some (some 1, [0, 1], [SysEvent.libusb_open kinect, SysEvent.construct 1]) := by
  decide


/-! ### open(), start(), stop() and close() in detail -/

/-- The result of `open()` on a device in state `Created`, against the list of
its checks: it returns `true` exactly when every check passes; its external calls
are those of the checks up to and including the first failing one, followed by
the two pool allocations when none fails; the state becomes `Open` when it
returns `true` and stays `Created` otherwise. -/
theorem open_of_created (env : OpenEnv) (d : Freenect2DeviceImpl)
    (hc : d.state_ = State.Created) :
    (d.open env).1 = (openChecks env d.has_usb_interfaces_).all (fun c => c.2) ∧
    (d.open env).2.2 = upToFirstFailure (openChecks env d.has_usb_interfaces_)
      ++ (if (d.open env).1 then
            [Event.allocateBulk 50 0x4000,
             Event.allocateIso 80 8 (toSizeT env.max_iso_packet_size)]
          else []) ∧
    (d.open env).2.1.state_ = (if (d.open env).1 then State.Open else State.Created) := by
  have h0 : ¬ d.state_ ≠ State.Created := by simp [hc]
  simp only [Freenect2DeviceImpl.open]
  rw [if_neg h0]
  by_cases h1 : env.setConfiguration ≠ UsbControl.ResultCode.Success
  · rw [if_pos h1]
    cases hh : d.has_usb_interfaces_ <;> simp [openChecks, upToFirstFailure, h1, hc]
  rw [if_neg h1]
  by_cases h2 : (!d.has_usb_interfaces_
      && env.claimInterfaces != UsbControl.ResultCode.Success) = true
  · rw [if_pos h2]
    cases hh : d.has_usb_interfaces_ <;>
      simp_all [openChecks, upToFirstFailure]
  rw [if_neg h2]
  by_cases h3 : env.setIsochronousDelay ≠ UsbControl.ResultCode.Success
  · rw [if_pos h3]
    cases hh : d.has_usb_interfaces_ <;>
      simp_all [openChecks, upToFirstFailure]
  rw [if_neg h3]
  by_cases h4 : env.setIrInterfaceState ≠ UsbControl.ResultCode.Success
  · rw [if_pos h4]
    cases hh : d.has_usb_interfaces_ <;>
      simp_all [openChecks, upToFirstFailure]
  rw [if_neg h4]
  by_cases h5 : env.enablePowerStates ≠ UsbControl.ResultCode.Success
  · rw [if_pos h5]
    cases hh : d.has_usb_interfaces_ <;>
      simp_all [openChecks, upToFirstFailure]
  rw [if_neg h5]
  by_cases h6 : env.setVideoTransferFunctionState ≠ UsbControl.ResultCode.Success
  · rw [if_pos h6]
    cases hh : d.has_usb_interfaces_ <;>
      simp_all [openChecks, upToFirstFailure]
  rw [if_neg h6]
  by_cases h7 : toSizeT env.max_iso_packet_size < 33792
  · rw [if_pos h7]
    cases hh : d.has_usb_interfaces_ <;>
      simp_all [openChecks, upToFirstFailure]
  rw [if_neg h7]
  cases hh : d.has_usb_interfaces_ <;>
    simp_all [openChecks, upToFirstFailure]

/-- C11 (the code at the failing input): on a freshly constructed device, when
every control-channel step returns `Success` and `libusb_get_max_iso_packet_size`
returns the error code -5, `open()` returns `true`, moves to `Open` and allocates
the depth pool with a packet size of 2^64 - 5: the negative result, stored in a
`size_t`, is not below 0x8400. -/
theorem open_accepts_error_code :
    (-5 : Int) < 0x8400 ∧
    (openChecks errorSizeOpenEnv false).map (fun c => c.2)
      = [true, true, true, true, true, true, true] ∧
    (Freenect2DeviceImpl.new (some kinect) (some 7)).open errorSizeOpenEnv
      = (true,
         { state_ := State.Open, has_usb_interfaces_ := true, usb_device_ := some kinect,
           usb_device_handle_ := some 7, command_seq_ := 0, rgb_listener_ := none,
           depth_listener_ := none },
         openSteps false 18446744073709551611) := by
  decide

theorem start_of_open (d : Freenect2DeviceImpl) (h : d.state_ = State.Open) :
    d.start.2.map Event.forgetSeq
      = [Event.setVideoTransferFunctionState UsbControl.State.Enabled,
         Event.execute Command.ReadFirmwareVersions 0,
         Event.execute Command.ReadData0x14 0,
         Event.execute Command.ReadSerialNumber 0,
         Event.execute Command.ReadDepthCameraParameters 0,
         Event.execute Command.ReadP0Tables 0,
         Event.loadP0TablesFromCommandResponse,
         Event.execute Command.ReadRgbCameraParameters 0,
         Event.execute Command.ReadStatus0x090000 0,
         Event.execute Command.InitStreams 0,
         Event.setIrInterfaceState UsbControl.State.Enabled,
         Event.execute Command.ReadStatus0x090000 0,
         Event.execute Command.SetStreamEnabled 0,
         Event.enableSubmission Pool.Rgb,
         Event.enableSubmission Pool.Ir,
         Event.submit Pool.Rgb 20,
         Event.submit Pool.Ir 60] := by
  simp [Freenect2DeviceImpl.start, h, Event.forgetSeq]

theorem stop_of_streaming (d : Freenect2DeviceImpl) (h : d.state_ = State.Streaming) :
    d.stop.2.map Event.forgetSeq
      = [Event.disableSubmission Pool.Rgb,
         Event.disableSubmission Pool.Ir,
         Event.cancel Pool.Rgb,
         Event.cancel Pool.Ir,
         Event.sleep_for 2,
         Event.setIrInterfaceState UsbControl.State.Disabled,
         Event.execute Command.Unknown0x0A 0,
         Event.execute Command.SetStreamDisabled 0,
         Event.setVideoTransferFunctionState UsbControl.State.Disabled] := by
  simp [Freenect2DeviceImpl.stop, h, Event.forgetSeq]

theorem filter_map_forgetSeq (l : List Event) :
    (l.filter Event.isDeviceOperation).map Event.forgetSeq
      = (l.map Event.forgetSeq).filter Event.isDeviceOperation := by
  induction l with
  | nil => rfl
  | cons e l ih => cases e <;> simp [List.filter_cons, Event.isDeviceOperation,
      Event.forgetSeq, ih]

/-- C12: for a device in state `Open`, `start()` sets the state to `Streaming` and
makes exactly these calls to the device, in this order (sequence numbers left
out): enable the video-transfer function; the commands ReadFirmwareVersions,
ReadData0x14, ReadSerialNumber, ReadDepthCameraParameters, ReadP0Tables,
ReadRgbCameraParameters, ReadStatus0x090000, InitStreams; enable the IR interface;
the commands ReadStatus0x090000, SetStreamEnabled; enable submission on the color
pool, then the depth pool; submit 20 color buffers, then 60 depth buffers. The
only other external call is the hand-over of the P0 tables response to the depth
processor, right after ReadP0Tables. No result of a call is an input of
`start()`, so this holds whatever the calls return. The ordering of the spec is a
subsequence of the trace; both pools have submission enabled before the first
buffer is submitted; the depth batch is the larger one. -/
theorem start_trace (d : Freenect2DeviceImpl) (h : d.state_ = State.Open) :
    d.start.1.state_ = State.Streaming ∧
    (d.start.2.filter Event.isDeviceOperation).map Event.forgetSeq
      = [Event.setVideoTransferFunctionState UsbControl.State.Enabled,
         Event.execute Command.ReadFirmwareVersions 0,
         Event.execute Command.ReadData0x14 0,
         Event.execute Command.ReadSerialNumber 0,
         Event.execute Command.ReadDepthCameraParameters 0,
         Event.execute Command.ReadP0Tables 0,
         Event.execute Command.ReadRgbCameraParameters 0,
         Event.execute Command.ReadStatus0x090000 0,
         Event.execute Command.InitStreams 0,
         Event.setIrInterfaceState UsbControl.State.Enabled,
         Event.execute Command.ReadStatus0x090000 0,
         Event.execute Command.SetStreamEnabled 0,
         Event.enableSubmission Pool.Rgb,
         Event.enableSubmission Pool.Ir,
         Event.submit Pool.Rgb 20,
         Event.submit Pool.Ir 60] ∧
    d.start.2.filter (fun e => !e.isDeviceOperation)
      = [Event.loadP0TablesFromCommandResponse] ∧
    List.Sublist
      [Event.execute Command.ReadFirmwareVersions 0,
       Event.execute Command.ReadSerialNumber 0,
       Event.execute Command.ReadDepthCameraParameters 0,
       Event.execute Command.ReadP0Tables 0,
       Event.execute Command.ReadRgbCameraParameters 0,
       Event.execute Command.InitStreams 0,
       Event.setIrInterfaceState UsbControl.State.Enabled,
       Event.execute Command.SetStreamEnabled 0]
      (d.start.2.map Event.forgetSeq) ∧
    (∃ a : List Event, d.start.2
        = a ++ [Event.enableSubmission Pool.Rgb, Event.enableSubmission Pool.Ir,
                Event.submit Pool.Rgb 20, Event.submit Pool.Ir 60] ∧
      ∀ e ∈ a, ∀ p n, e ≠ Event.submit p n) ∧
    (20 : Nat) < 60 := by
  refine ⟨(start_count d h).2, ?_, ?_, ?_, ?_, by decide⟩
  · rw [filter_map_forgetSeq, start_of_open d h]
    decide
  · simp [Freenect2DeviceImpl.start, h, List.filter_cons, Event.isDeviceOperation]
  · rw [start_of_open d h]
    decide
  · refine ⟨d.start.2.take 13, ?_, ?_⟩
    · simp [Freenect2DeviceImpl.start, h]
    · intro e he p n
      simp [Freenect2DeviceImpl.start, h] at he
      rcases he with rfl | rfl | rfl | rfl | rfl | rfl | rfl | rfl | rfl | rfl | rfl | rfl | rfl <;>
        simp

theorem start_trace_witness :
    (runCalls [DeviceCall.open okOpenEnv]
        (Freenect2DeviceImpl.new (some kinect) (some 7))).1.state_ = State.Open ∧
    (runCalls [DeviceCall.open okOpenEnv]
        (Freenect2DeviceImpl.new (some kinect) (some 7))).1.start.1.state_ = State.Streaming :=
  ⟨by decide,
   (start_trace (runCalls [DeviceCall.open okOpenEnv]
      (Freenect2DeviceImpl.new (some kinect) (some 7))).1 (by decide)).1⟩

/-- C13: for a device in state `Streaming`, `stop()` sets the state to `Open` and
makes exactly these calls to the device, in this order (sequence numbers left
out): disable submission on the color pool and on the depth pool; cancel the
transfers of the color pool and of the depth pool; disable the IR interface; the
two commands Unknown0x0A and SetStreamDisabled; disable the video-transfer
function. The only other thing it does is to sleep 2 seconds after the
cancellation. On each pool submission is disabled before its transfers are
cancelled. -/
theorem stop_trace (d : Freenect2DeviceImpl) (h : d.state_ = State.Streaming) :
    d.stop.1.state_ = State.Open ∧
    (d.stop.2.filter Event.isDeviceOperation).map Event.forgetSeq
      = [Event.disableSubmission Pool.Rgb,
         Event.disableSubmission Pool.Ir,
         Event.cancel Pool.Rgb,
         Event.cancel Pool.Ir,
         Event.setIrInterfaceState UsbControl.State.Disabled,
         Event.execute Command.Unknown0x0A 0,
         Event.execute Command.SetStreamDisabled 0,
         Event.setVideoTransferFunctionState UsbControl.State.Disabled] ∧
    d.stop.2.filter (fun e => !e.isDeviceOperation) = [Event.sleep_for 2] ∧
    (commandSeqs d.stop.2).length = 2 ∧
    (∀ p : Pool, List.Sublist [Event.disableSubmission p, Event.cancel p] d.stop.2) := by
  refine ⟨(stop_count d h).2, ?_, ?_, (stop_count d h).1, ?_⟩
  · rw [filter_map_forgetSeq, stop_of_streaming d h]
    decide
  · simp [Freenect2DeviceImpl.stop, h, List.filter_cons, Event.isDeviceOperation]
  · intro p
    cases p <;> simp [Freenect2DeviceImpl.stop, h]

theorem stop_trace_witness :
    (runCalls [DeviceCall.open okOpenEnv, DeviceCall.start]
        (Freenect2DeviceImpl.new (some kinect) (some 7))).1.state_ = State.Streaming ∧
    (runCalls [DeviceCall.open okOpenEnv, DeviceCall.start]
        (Freenect2DeviceImpl.new (some kinect) (some 7))).1.stop.1.state_ = State.Open :=
  ⟨by decide,
   (stop_trace (runCalls [DeviceCall.open okOpenEnv, DeviceCall.start]
      (Freenect2DeviceImpl.new (some kinect) (some 7))).1 (by decide)).1⟩

theorem stop_has_usb_interfaces (d : Freenect2DeviceImpl) :
    d.stop.1.has_usb_interfaces_ = d.has_usb_interfaces_ ∧
      d.stop.1.usb_device_handle_ = d.usb_device_handle_ := by
  unfold Freenect2DeviceImpl.stop
  split <;> simp [Freenect2DeviceImpl.nextCommandSeq]

theorem stop_no_release (d : Freenect2DeviceImpl) :
    Event.releaseInterfaces ∉ d.stop.2 ∧ d.stop.2.count (Event.deallocate Pool.Rgb) = 0 ∧
      d.stop.2.count (Event.deallocate Pool.Ir) = 0 := by
  unfold Freenect2DeviceImpl.stop
  split
  · simp
  · simp [List.count_cons]

/-- C14: for a device that is not `Closed`, after `close()` the state is `Closed`,
both frame listeners are null (each packet processor had its listener set to
null), the interface flag is false, each of the two pools was deallocated once,
`libusb_close` was called exactly once, on the handle the device held, and the
handle and the USB device pointer are null; `releaseInterfaces` was called
exactly when the interfaces were claimed on entry. -/
theorem close_effects (d : Freenect2DeviceImpl) (h : d.state_ ≠ State.Closed) :
    d.close.1.state_ = State.Closed ∧
    d.close.1.rgb_listener_ = none ∧ d.close.1.depth_listener_ = none ∧
    Event.setFrameListener Pool.Rgb none ∈ d.close.2 ∧
    Event.setFrameListener Pool.Ir none ∈ d.close.2 ∧
    d.close.1.has_usb_interfaces_ = false ∧
    d.close.2.count (Event.deallocate Pool.Rgb) = 1 ∧
    d.close.2.count (Event.deallocate Pool.Ir) = 1 ∧
    d.close.2.countP Event.isLibusbClose = 1 ∧
    Event.libusb_close d.usb_device_handle_ ∈ d.close.2 ∧
    d.close.1.usb_device_handle_ = none ∧ d.close.1.usb_device_ = none ∧
    (Event.releaseInterfaces ∈ d.close.2 ↔ d.has_usb_interfaces_ = true) := by
  obtain ⟨hc1, hc2⟩ := close_close_count d h
  obtain ⟨hs1, -⟩ := stop_has_usb_interfaces d
  obtain ⟨hn1, hn2, hn3⟩ := stop_no_release d
  refine ⟨close_state d, ?_, ?_, ?_, ?_, ?_, ?_, ?_, hc1, hc2, ?_, ?_, ?_⟩
  all_goals
    by_cases hs : d.state_ = State.Streaming <;>
    by_cases hh : d.has_usb_interfaces_ = true <;>
    simp [Freenect2DeviceImpl.close, h, hs, hh, hs1, hn1, hn2, hn3, List.count_cons,
      List.count_append]

theorem close_effects_witness :
    (runCalls [DeviceCall.open okOpenEnv, DeviceCall.start]
        (Freenect2DeviceImpl.new (some kinect) (some 7))).1.state_ ≠ State.Closed ∧
    (runCalls [DeviceCall.open okOpenEnv, DeviceCall.start]
        (Freenect2DeviceImpl.new (some kinect) (some 7))).1.close.1.state_ = State.Closed :=
  ⟨by decide,
   (close_effects (runCalls [DeviceCall.open okOpenEnv, DeviceCall.start]
      (Freenect2DeviceImpl.new (some kinect) (some 7))).1 (by decide)).1⟩

/-! ### Interface claiming -/

/-- What `open()` does with `claimInterfaces`: it is not called when the
interfaces are claimed or the state is not `Created`; the interface flag is never
cleared; and after a call of `claimInterfaces` that returned `Success` the flag
is set. -/
theorem open_claim (env : OpenEnv) (d : Freenect2DeviceImpl) :
    ((d.has_usb_interfaces_ = true ∨ d.state_ ≠ State.Created) →
      Event.claimInterfaces ∉ (d.open env).2.2) ∧
    (d.has_usb_interfaces_ = true → (d.open env).2.1.has_usb_interfaces_ = true) ∧
    (Event.claimInterfaces ∈ (d.open env).2.2 →
      env.claimInterfaces = UsbControl.ResultCode.Success →
      (d.open env).2.1.has_usb_interfaces_ = true) := by
  simp only [Freenect2DeviceImpl.open]
  by_cases h0 : d.state_ ≠ State.Created
  · rw [if_pos h0]; simp
  rw [if_neg h0]
  by_cases h1 : env.setConfiguration ≠ UsbControl.ResultCode.Success
  · rw [if_pos h1]; simp
  rw [if_neg h1]
  by_cases h2 : (!d.has_usb_interfaces_
      && env.claimInterfaces != UsbControl.ResultCode.Success) = true
  · rw [if_pos h2]; cases hh : d.has_usb_interfaces_ <;> simp_all
  rw [if_neg h2]
  by_cases h3 : env.setIsochronousDelay ≠ UsbControl.ResultCode.Success
  · rw [if_pos h3]; cases hh : d.has_usb_interfaces_ <;> simp_all
  rw [if_neg h3]
  by_cases h4 : env.setIrInterfaceState ≠ UsbControl.ResultCode.Success
  · rw [if_pos h4]; cases hh : d.has_usb_interfaces_ <;> simp_all
  rw [if_neg h4]
  by_cases h5 : env.enablePowerStates ≠ UsbControl.ResultCode.Success
  · rw [if_pos h5]; cases hh : d.has_usb_interfaces_ <;> simp_all
  rw [if_neg h5]
  by_cases h6 : env.setVideoTransferFunctionState ≠ UsbControl.ResultCode.Success
  · rw [if_pos h6]; cases hh : d.has_usb_interfaces_ <;> simp_all
  rw [if_neg h6]
  by_cases h7 : toSizeT env.max_iso_packet_size < 33792
  · rw [if_pos h7]; cases hh : d.has_usb_interfaces_ <;> simp_all
  rw [if_neg h7]
  cases hh : d.has_usb_interfaces_ <;> simp_all

/-- A device with claimed interfaces, or one that has left state `Created`, stays
so under every call, and no call on it calls `claimInterfaces`. -/
theorem applyCall_no_claim (c : DeviceCall) (d : Freenect2DeviceImpl)
    (h : d.has_usb_interfaces_ = true ∨ d.state_ ≠ State.Created) :
    Event.claimInterfaces ∉ (applyCall c d).2 ∧
    ((applyCall c d).1.has_usb_interfaces_ = true ∨
      (applyCall c d).1.state_ ≠ State.Created) := by
  cases c
  · rename_i env
    refine ⟨(open_claim env d).1 h, ?_⟩
    rcases h with h | h
    · exact Or.inl ((open_claim env d).2.1 h)
    · exact Or.inr (applyCall_not_created (DeviceCall.open env) d h)
  · constructor
    · by_cases hs : d.state_ = State.Open
      · simp [applyCall, Freenect2DeviceImpl.start, hs]
      · simp [applyCall, start_of_not_open d hs]
    · by_cases hs : d.state_ = State.Open
      · right
        simp [applyCall, Freenect2DeviceImpl.start, hs]
      · simpa [applyCall, start_of_not_open d hs] using h
  · constructor
    · by_cases hs : d.state_ = State.Streaming
      · simp [applyCall, Freenect2DeviceImpl.stop, hs]
      · simp [applyCall, stop_of_not_streaming d hs]
    · by_cases hs : d.state_ = State.Streaming
      · right
        simp [applyCall, Freenect2DeviceImpl.stop, hs]
      · simpa [applyCall, stop_of_not_streaming d hs] using h
  · constructor
    · by_cases hc : d.state_ = State.Closed
      · simp [applyCall, close_of_closed d hc]
      · by_cases hs : d.state_ = State.Streaming <;>
        by_cases hh : d.has_usb_interfaces_ = true <;>
        simp [applyCall, Freenect2DeviceImpl.close, hc, hs, hh,
          Freenect2DeviceImpl.stop, Freenect2DeviceImpl.nextCommandSeq]
    · right
      simp [applyCall, close_state]

theorem runCalls_no_claim (cs : List DeviceCall) (d : Freenect2DeviceImpl)
    (h : d.has_usb_interfaces_ = true ∨ d.state_ ≠ State.Created) :
    Event.claimInterfaces ∉ (runCalls cs d).2 := by
  induction cs generalizing d with
  | nil => simp [runCalls]
  | cons c cs ih =>
    obtain ⟨h1, h2⟩ := applyCall_no_claim c d h
    simp only [runCalls, List.mem_append, not_or]
    exact ⟨h1, ih _ h2⟩

/-- C19: once an `open()` has called `claimInterfaces` and got `Success`, the
interface flag is set and no later call on the device calls `claimInterfaces`
again, whatever the sequence of `open()`, `start()`, `stop()` and `close()` calls
and whatever the environment answers; in particular not the retry of an `open()`
that failed at a later step. (After a `close()` the state is `Closed` and
`open()` returns at once, so this also holds beyond a `close()`.) -/
theorem claimInterfaces_once (env : OpenEnv) (d : Freenect2DeviceImpl)
    (hcall : Event.claimInterfaces ∈ (d.open env).2.2)
    (hok : env.claimInterfaces = UsbControl.ResultCode.Success) :
    (d.open env).2.1.has_usb_interfaces_ = true ∧
    (∀ env1 : OpenEnv, Event.claimInterfaces ∉ ((d.open env).2.1.open env1).2.2) ∧
    (∀ cs : List DeviceCall, Event.claimInterfaces ∉ (runCalls cs (d.open env).2.1).2) := by
  have h1 := (open_claim env d).2.2 hcall hok
  exact ⟨h1, fun env1 => (open_claim env1 _).1 (Or.inl h1),
    fun cs => runCalls_no_claim cs _ (Or.inl h1)⟩

theorem claimInterfaces_once_witness :
    ((Freenect2DeviceImpl.new (some kinect) (some 7)).open lateFailOpenEnv).1 = false ∧
    (((Freenect2DeviceImpl.new (some kinect) (some 7)).open lateFailOpenEnv).2.1.open
      okOpenEnv).1 = true ∧
    Event.claimInterfaces ∉ (((Freenect2DeviceImpl.new (some kinect) (some 7)).open
      lateFailOpenEnv).2.1.open okOpenEnv).2.2 :=
  ⟨by decide, by decide,
   (claimInterfaces_once lateFailOpenEnv (Freenect2DeviceImpl.new (some kinect) (some 7))
      (by decide) (by decide)).2.1 okOpenEnv⟩

/-! ### The registry and the device objects -/

theorem getNumDevices_no_message (bus : List UsbDevice) (m : Freenect2Impl) (x : Message) :
    SysEvent.message x ∉ (m.getNumDevices bus).2.2 := by
  intro h
  have := getNumDevices_events bus m _ h
  simp [SysEvent.isEnumeration] at this

theorem deleteDevice_registered (p : Nat) (w : World) (d : Freenect2DeviceImpl)
    (hd : derefDevice w.heap p = some d) (hp : p ∈ w.impl_.devices_) :
    w.deleteDevice p
      = some ({ impl_ := { w.impl_ with devices_ := w.impl_.devices_.erase p },
                heap := w.heap.set p none },
          d.close.2.map (SysEvent.device p) ++ [SysEvent.destroy p]) := by
  simp only [World.deleteDevice, hd, removeDevice_fst, removeDevice_snd_of_mem _ _ hp,
    List.append_nil]

theorem openDevice_no_message (idx : Int) (env : OpenDeviceEnv) (w w1 : World)
    (r : Option Nat) (t : List SysEvent)
    (h : Freenect2.openDevice idx env w = some (r, w1, t)) (x : Message) :
    SysEvent.message x ∉ t := by
  unfold Freenect2.openDevice at h
  simp only [] at h
  by_cases hidx : idx < (w.impl_.getNumDevices env.bus).1
  · rw [if_pos hidx] at h
    cases hdev : (w.impl_.getNumDevices env.bus).2.1.enumerated_devices_[toSizeT idx]? with
    | none => simp [hdev] at h
    | some dev =>
      simp only [hdev, Freenect2Impl.tryGetDevice, getNumDevices_devices] at h
      cases htry : tryGetDeviceLoop w.heap dev w.impl_.devices_ with
      | none => simp [htry] at h
      | some found =>
        cases found with
        | some p =>
          simp only [htry, Option.some.injEq, Prod.mk.injEq] at h
          obtain ⟨-, -, rfl⟩ := h
          exact getNumDevices_no_message _ _ x
        | none =>
          simp only [htry] at h
          cases hopen : ((Freenect2DeviceImpl.new (some dev) env.dev_handle).open
              env.open_env).1 with
          | true =>
            simp only [hopen, if_true, Option.some.injEq, Prod.mk.injEq] at h
            obtain ⟨-, -, rfl⟩ := h
            have hg := getNumDevices_no_message env.bus w.impl_ x
            simp [hg]
          | false =>
            have hreg : w.heap.length
                ∈ ((w.impl_.getNumDevices env.bus).2.1.addDevice w.heap.length).devices_ := by
              simp [Freenect2Impl.addDevice]
            simp only [hopen, World.deleteDevice, derefDevice_append_length,
              removeDevice_snd_of_mem _ _ hreg] at h
            simp only [Bool.false_eq_true, if_false, Option.some.injEq, Prod.mk.injEq] at h
            obtain ⟨-, -, rfl⟩ := h
            have hg := getNumDevices_no_message env.bus w.impl_ x
            simp [hg]
  · rw [if_neg hidx] at h
    simp only [Option.some.injEq, Prod.mk.injEq] at h
    obtain ⟨-, -, rfl⟩ := h
    exact getNumDevices_no_message _ _ x

theorem callDevice_no_message (f : Freenect2DeviceImpl → Freenect2DeviceImpl × List Event)
    (p : Nat) (w w1 : World) (t : List SysEvent) (h : w.callDevice f p = some (w1, t))
    (x : Message) : SysEvent.message x ∉ t := by
  unfold World.callDevice at h
  cases hd : derefDevice w.heap p with
  | none => simp [hd] at h
  | some d =>
    simp only [hd, Option.some.injEq, Prod.mk.injEq] at h
    obtain ⟨-, rfl⟩ := h
    simp

theorem step_no_message (w w1 : World) (c : Call) (t : List SysEvent)
    (h : w.step c = some (w1, t)) (hw : w.Inv) (x : Message) : SysEvent.message x ∉ t := by
  cases c with
  | enumerateDevices bus =>
    simp only [World.step, Option.some.injEq, Prod.mk.injEq] at h
    obtain ⟨-, rfl⟩ := h
    have hg := getNumDevices_no_message bus w.impl_.clearDeviceEnumeration.1 x
    simp [Freenect2.enumerateDevices, Freenect2Impl.clearDeviceEnumeration] at hg ⊢
    exact hg
  | openDevice idx env =>
    simp only [World.step] at h
    cases ho : Freenect2.openDevice idx env w with
    | none => simp [ho] at h
    | some y =>
      obtain ⟨r, w2, t2⟩ := y
      simp only [ho, Option.map_some', Option.some.injEq, Prod.mk.injEq] at h
      obtain ⟨-, rfl⟩ := h
      exact openDevice_no_message idx env w w2 r t2 ho x
  | openDefaultDevice env =>
    simp only [World.step, Freenect2.openDefaultDevice] at h
    cases ho : Freenect2.openDevice 0 env w with
    | none => simp [ho] at h
    | some y =>
      obtain ⟨r, w2, t2⟩ := y
      simp only [ho, Option.map_some', Option.some.injEq, Prod.mk.injEq] at h
      obtain ⟨-, rfl⟩ := h
      exact openDevice_no_message 0 env w w2 r t2 ho x
  | setColorFrameListener p l => exact callDevice_no_message _ p w w1 t h x
  | setIrAndDepthFrameListener p l => exact callDevice_no_message _ p w w1 t h x
  | start p => exact callDevice_no_message _ p w w1 t h x
  | stop p => exact callDevice_no_message _ p w w1 t h x
  | close p => exact callDevice_no_message _ p w w1 t h x
  | destroy p =>
    simp only [World.step] at h
    cases hd : derefDevice w.heap p with
    | none => simp [World.deleteDevice, hd] at h
    | some d =>
      rw [deleteDevice_registered p w d hd (hw.registered p d hd)] at h
      simp only [Option.some.injEq, Prod.mk.injEq] at h
      obtain ⟨-, rfl⟩ := h
      simp

theorem clearDevicesLoop_spec (l : List Nat) (w : World) (hw : w.Inv)
    (hl : w.impl_.devices_ = l) :
    ∃ (w1 : World) (t : List SysEvent), clearDevicesLoop l w = some (w1, t) ∧
      w1.impl_.devices_ = [] ∧ w1.Inv ∧ (∀ x, SysEvent.message x ∉ t) ∧
      (∀ p ∈ l, SysEvent.destroy p ∈ t) := by
  induction l generalizing w with
  | nil => exact ⟨w, [], rfl, hl, hw, fun x hx => (by cases hx), fun p hp => (by cases hp)⟩
  | cons p ps ih =>
    have hp : p ∈ w.impl_.devices_ := by rw [hl]; exact List.mem_cons_self _ _
    obtain ⟨d, hd⟩ := hw.live p hp
    have hdel := deleteDevice_registered p w d hd hp
    have hinv := inv_deleteDevice p w _ _ hdel hw
    obtain ⟨w1, t, h1, h2, h3, h4, h5⟩ := ih _ hinv (by simp [hl])
    refine ⟨w1, (d.close.2.map (SysEvent.device p) ++ [SysEvent.destroy p]) ++ t, ?_, h2, h3,
      ?_, ?_⟩
    · simp only [clearDevicesLoop, hdel, h1]
    · intro x hx
      simp only [List.mem_append, List.mem_map, List.mem_singleton] at hx
      rcases hx with (⟨e, -, he⟩ | he) | he
      · cases he
      · cases he
      · exact h4 x he
    · intro q hq
      rcases List.mem_cons.1 hq with rfl | hq
      · simp
      · exact List.mem_append_right _ (h5 q hq)

/-- The branch of `removeDevice` for a device that is not in the list exists in
the embedding: removing from an empty list prints the message. -/
theorem removeDevice_unregistered :
    (Freenect2Impl.new.removeDevice 0).2
      = [SysEvent.message Message.removeDevice_not_in_list] := by
  decide

/-- C20: in every reachable state the registry has no duplicates and holds
exactly the addresses of the device objects that were constructed and not yet
destroyed. Hence no public call from a reachable state prints one of the two
diagnostic messages: `removeDevice` finds the device being destroyed, for a
`delete` by the caller and for the device `openDevice` (or `openDefaultDevice`)
deletes after a failed `open()`, and takes exactly that one entry out of the
registry; and `clearDevices()` is defined, destroys every registered device,
prints no message and leaves an empty registry and no live device object. -/
theorem registry_exact (w : World) (hw : Reachable w) :
    w.impl_.devices_.Nodup ∧
    (∀ p, p ∈ w.impl_.devices_ ↔ ∃ d, derefDevice w.heap p = some d) ∧
    (∀ idx env r w1 t, Freenect2.openDevice idx env w = some (r, w1, t) →
      ∀ x, SysEvent.message x ∉ t) ∧
    (∀ c w1 t, w.step c = some (w1, t) → ∀ x, SysEvent.message x ∉ t) ∧
    (∀ p w1 t, w.deleteDevice p = some (w1, t) →
      p ∈ w.impl_.devices_ ∧ (w.impl_.removeDevice p).2 = [] ∧
      w1.impl_.devices_.length + 1 = w.impl_.devices_.length) ∧
    (∃ (w1 : World) (t : List SysEvent), w.clearDevices = some (w1, t) ∧
      w1.impl_.devices_ = [] ∧ (∀ p, derefDevice w1.heap p = none) ∧
      (∀ p ∈ w.impl_.devices_, SysEvent.destroy p ∈ t) ∧
      ∀ x, SysEvent.message x ∉ t) := by
  have hinv := reachable_inv w hw
  refine ⟨hinv.nodup, fun p => ⟨hinv.live p, fun ⟨d, hd⟩ => hinv.registered p d hd⟩,
    fun idx env r w1 t h x => openDevice_no_message idx env w w1 r t h x,
    fun c w1 t h x => step_no_message w w1 c t h hinv x, ?_, ?_⟩
  · intro p w1 t h
    cases hd : derefDevice w.heap p with
    | none => simp [World.deleteDevice, hd] at h
    | some d =>
      have hp := hinv.registered p d hd
      rw [deleteDevice_registered p w d hd hp] at h
      simp only [Option.some.injEq, Prod.mk.injEq] at h
      obtain ⟨rfl, -⟩ := h
      refine ⟨hp, removeDevice_snd_of_mem _ _ hp, ?_⟩
      simp only []
      rw [List.length_erase_of_mem hp]
      have := List.length_pos_of_mem hp
      omega
  · obtain ⟨w1, t, h1, h2, h3, h4, h5⟩ := clearDevicesLoop_spec _ w hinv rfl
    refine ⟨w1, t, ?_, h2, ?_, h5, h4⟩
    · simp [World.clearDevices, h1, h2]
    · intro p
      cases hd : derefDevice w1.heap p with
      | none => rfl
      | some d =>
        have := h3.registered p d hd
        rw [h2] at this
        cases this

theorem registry_exact_witness :
    (World.runD [Call.openDevice 0 (busEnv [kinect, kinect2] okOpenEnv),
        Call.openDevice 1 (busEnv [] okOpenEnv), Call.start 0] World.init).impl_.devices_
      = [0, 1] ∧
    (∃ w1 t, Freenect2.openDevice 0 (busEnv [kinect] failOpenEnv) World.init
        = some (none, w1, t) ∧ SysEvent.destroy 0 ∈ t ∧ ∀ x, SysEvent.message x ∉ t) ∧
    ((World.runD [Call.openDevice 0 (busEnv [kinect, kinect2] okOpenEnv),
        Call.openDevice 1 (busEnv [] okOpenEnv), Call.start 0] World.init).clearDevices.map
      (fun x => x.1.impl_.devices_)) = some [] ∧
    (∀ c w1 t, (World.runD [Call.openDevice 0 (busEnv [kinect, kinect2] okOpenEnv),
        Call.openDevice 1 (busEnv [] okOpenEnv), Call.start 0] World.init).step c
        = some (w1, t) → ∀ x, SysEvent.message x ∉ t) :=
  ⟨by decide,
   ⟨_, _, rfl, by decide,
     (registry_exact World.init Reachable.init).2.2.1 0 (busEnv [kinect] failOpenEnv)
       none _ _ rfl⟩,
   by decide,
   (registry_exact
      (World.runD [Call.openDevice 0 (busEnv [kinect, kinect2] okOpenEnv),
        Call.openDevice 1 (busEnv [] okOpenEnv), Call.start 0] World.init)
      (reachable_runD _ _ Reachable.init)).2.2.2.1⟩

/-! ### Exceptions -/

/-- The marker loop moves on by at least 2 bytes in every iteration, so
`jpeg_buffer_length + 1` iterations are enough: the model never runs out of
iterations. -/
theorem markerWalk_fuel (fuel : Nat) (buf : List Nat) (p : Nat) (h0 : 0 < fuel)
    (h : buf.length < p + fuel) : markerWalk fuel buf p ≠ WalkResult.outOfFuel := by
  induction fuel generalizing p with
  | zero => omega
  | succ f ih =>
    unfold markerWalk
    by_cases hp : p < buf.length
    · rw [if_pos hp]
      cases h1 : readByte buf p <;> cases h2 : readByte buf (p + 1) <;>
        cases h3 : readByte buf (p + 2) <;> cases h4 : readByte buf (p + 3) <;>
        simp only [] <;> try (intro hc; cases hc)
      rename_i b0 b1 s1 s2
      split_ifs
      · intro hc; cases hc
      · intro hc; cases hc
      · exact ih (p + 2) (by omega) (by omega)
      · exact ih (p + (256 * s1 + s2 + 2)) (by omega) (by omega)
    · rw [if_neg hp]
      intro hc; cases hc

theorem process_of_success (env : ProcessEnv) (packet : RgbPacket)
    (s : TurboJpegRgbPacketProcessor) (hd : s.decompressor ≠ none) (hl : s.listener_ ≠ none)
    (hw : markerWalk (packet.jpeg_buffer_length + 1) packet.jpeg_buffer 0 = WalkResult.finished)
    (hr : env.tjDecompress2 = 0) :
    s.process env packet
      = some (if env.addNewFrame then s.newFrame.1 else s,
          [RgbEvent.tjDecompress2 packet.jpeg_buffer s.frame, RgbEvent.addNewFrame s.frame]
            ++ (if env.addNewFrame then s.newFrame.2 else [])) := by
  unfold TurboJpegRgbPacketProcessor.process
  rw [if_pos ⟨hd, hl⟩, hw]
  cases h : env.addNewFrame <;> simp [hr]

theorem process_of_failure (env : ProcessEnv) (packet : RgbPacket)
    (s : TurboJpegRgbPacketProcessor) (hd : s.decompressor ≠ none) (hl : s.listener_ ≠ none)
    (hw : markerWalk (packet.jpeg_buffer_length + 1) packet.jpeg_buffer 0 = WalkResult.finished)
    (hr : env.tjDecompress2 ≠ 0) :
    s.process env packet = some (s, [RgbEvent.tjDecompress2 packet.jpeg_buffer s.frame]) := by
  unfold TurboJpegRgbPacketProcessor.process
  rw [if_pos ⟨hd, hl⟩, hw]
  simp [hr]

/-- The frame of a processor is an allocated one: this holds after the
constructor and is kept by every `process`. -/
theorem process_frame_allocated (env : ProcessEnv) (packet : RgbPacket)
    (s s1 : TurboJpegRgbPacketProcessor) (t : List RgbEvent) (decompressor : Option Nat)
    (n : Nat) (hf : s.frame < s.frames_allocated) (h : s.process env packet = some (s1, t)) :
    s1.frame < s1.frames_allocated ∧
    (TurboJpegRgbPacketProcessor.new decompressor n).frame
      < (TurboJpegRgbPacketProcessor.new decompressor n).frames_allocated := by
  refine ⟨?_, by simp [TurboJpegRgbPacketProcessor.new]⟩
  unfold TurboJpegRgbPacketProcessor.process at h
  split at h
  · split at h
    · split at h
      · split at h
        · simp only [Option.some.injEq, Prod.mk.injEq] at h
          rw [← h.1]
          simp [TurboJpegRgbPacketProcessor.newFrame]
        · simp only [Option.some.injEq, Prod.mk.injEq] at h
          rw [← h.1]
          exact hf
      · simp only [Option.some.injEq, Prod.mk.injEq] at h
        rw [← h.1]
        exact hf
    · cases h
  · simp only [Option.some.injEq, Prod.mk.injEq] at h
    rw [← h.1]
    exact hf

/-- C15: let a packet be decoded successfully by a processor with a decompressor
and a listener, whose frame is an allocated one. If the listener returns `false`
from `addNewFrame`, the processor is unchanged, and the next successfully decoded
packet is decoded into, and offered as, the same frame. If the listener returns
`true`, the processor allocates a frame during the same call, before it returns:
its frame is then a new address, different from the one handed over, and the
next successfully decoded packet is decoded into and offered as that new frame. -/
theorem process_double_buffering (env env2 : ProcessEnv) (packet packet2 : RgbPacket)
    (s : TurboJpegRgbPacketProcessor) (hd : s.decompressor ≠ none) (hl : s.listener_ ≠ none)
    (hf : s.frame < s.frames_allocated)
    (hw : markerWalk (packet.jpeg_buffer_length + 1) packet.jpeg_buffer 0 = WalkResult.finished)
    (hw2 : markerWalk (packet2.jpeg_buffer_length + 1) packet2.jpeg_buffer 0
      = WalkResult.finished)
    (hr : env.tjDecompress2 = 0) (hr2 : env2.tjDecompress2 = 0) :
    (env.addNewFrame = false →
      s.process env packet
        = some (s, [RgbEvent.tjDecompress2 packet.jpeg_buffer s.frame,
            RgbEvent.addNewFrame s.frame]) ∧
      ∃ s2 t2, s.process env2 packet2
        = some (s2, [RgbEvent.tjDecompress2 packet2.jpeg_buffer s.frame,
            RgbEvent.addNewFrame s.frame] ++ t2)) ∧
    (env.addNewFrame = true →
      ∃ s1, s.process env packet
          = some (s1, [RgbEvent.tjDecompress2 packet.jpeg_buffer s.frame,
              RgbEvent.addNewFrame s.frame, RgbEvent.newFrame s1.frame]) ∧
        s1.frame ≠ s.frame ∧ s.frames_allocated ≤ s1.frame ∧
        s1.frame < s1.frames_allocated ∧
        ∃ s2 t2, s1.process env2 packet2
          = some (s2, [RgbEvent.tjDecompress2 packet2.jpeg_buffer s1.frame,
              RgbEvent.addNewFrame s1.frame] ++ t2)) := by
  constructor
  · intro ha
    refine ⟨?_, _, _, process_of_success env2 packet2 s hd hl hw2 hr2⟩
    rw [process_of_success env packet s hd hl hw hr]
    simp [ha]
  · intro ha
    refine ⟨s.newFrame.1, ?_, ?_, ?_, ?_, _, _,
      process_of_success env2 packet2 s.newFrame.1 hd hl hw2 hr2⟩
    · rw [process_of_success env packet s hd hl hw hr]
      simp [ha, TurboJpegRgbPacketProcessor.newFrame]
    · simp only [TurboJpegRgbPacketProcessor.newFrame]
      omega
    · simp [TurboJpegRgbPacketProcessor.newFrame]
    · simp [TurboJpegRgbPacketProcessor.newFrame]

theorem process_double_buffering_witness :
    readyProcessor.process ⟨0, false⟩ jpegPacket
      = some (readyProcessor, [RgbEvent.tjDecompress2 jpegPacket.jpeg_buffer 0,
          RgbEvent.addNewFrame 0]) ∧
    (∃ s1, readyProcessor.process ⟨0, true⟩ jpegPacket
        = some (s1, [RgbEvent.tjDecompress2 jpegPacket.jpeg_buffer readyProcessor.frame,
            RgbEvent.addNewFrame readyProcessor.frame, RgbEvent.newFrame s1.frame]) ∧
      s1.frame ≠ readyProcessor.frame ∧ readyProcessor.frames_allocated ≤ s1.frame ∧
      s1.frame < s1.frames_allocated ∧
      ∃ s2 t2, s1.process ⟨0, false⟩ jpegPacket
        = some (s2, [RgbEvent.tjDecompress2 jpegPacket.jpeg_buffer s1.frame,
            RgbEvent.addNewFrame s1.frame] ++ t2)) :=
  ⟨by decide,
   (process_double_buffering ⟨0, true⟩ ⟨0, false⟩ jpegPacket jpegPacket readyProcessor
      (by decide) (by decide) (by decide) (by decide) (by decide) rfl rfl).2 rfl⟩

/-- C16: when the decode of a packet fails (`tjDecompress2` returns a non-zero
result), `process` makes no other external call than the decode: `addNewFrame` is
not called; the processor, and so its frame, is unchanged; and a following packet
that decodes successfully is decoded into that same frame and offered to the
listener. -/
theorem process_decode_failure (env env2 : ProcessEnv) (packet packet2 : RgbPacket)
    (s : TurboJpegRgbPacketProcessor) (hd : s.decompressor ≠ none) (hl : s.listener_ ≠ none)
    (hw : markerWalk (packet.jpeg_buffer_length + 1) packet.jpeg_buffer 0 = WalkResult.finished)
    (hw2 : markerWalk (packet2.jpeg_buffer_length + 1) packet2.jpeg_buffer 0
      = WalkResult.finished)
    (hr : env.tjDecompress2 ≠ 0) (hr2 : env2.tjDecompress2 = 0) :
    s.process env packet = some (s, [RgbEvent.tjDecompress2 packet.jpeg_buffer s.frame]) ∧
    (∀ s1 t, s.process env packet = some (s1, t) →
      t.countP RgbEvent.isAddNewFrame = 0 ∧ s1.frame = s.frame) ∧
    (∃ s2 t2, s.process env2 packet2
      = some (s2, [RgbEvent.tjDecompress2 packet2.jpeg_buffer s.frame,
          RgbEvent.addNewFrame s.frame] ++ t2)) := by
  have h1 := process_of_failure env packet s hd hl hw hr
  refine ⟨h1, ?_, _, _, process_of_success env2 packet2 s hd hl hw2 hr2⟩
  intro s1 t h
  rw [h1] at h
  simp only [Option.some.injEq, Prod.mk.injEq] at h
  obtain ⟨rfl, rfl⟩ := h
  exact ⟨rfl, rfl⟩

theorem process_decode_failure_witness :
    readyProcessor.process ⟨-1, true⟩ jpegPacket
      = some (readyProcessor,
          [RgbEvent.tjDecompress2 jpegPacket.jpeg_buffer readyProcessor.frame]) :=
  (process_decode_failure ⟨-1, true⟩ ⟨0, false⟩ jpegPacket jpegPacket readyProcessor
    (by decide) (by decide) (by decide) (by decide) (by decide) rfl).1

/-! ### Transfer pools -/

/-- C18 (the code at the failing input): `open()`, `start()` and `close()` on one
device, with no completion delivered before `close()` reaches the deallocation.
`close()` runs `stop()`, which cancels the transfers and sleeps 2 seconds, and
then deallocates: at the `deallocate` of the color pool 20 of its buffers are
still Submitted, at the `deallocate` of the depth pool 60. When the 20 and 60
completions are delivered during the sleep, no buffer is Submitted at either
`deallocate`. -/
theorem deallocate_while_submitted :
    deviceCalls (withoutCompletions
        (runCalls [DeviceCall.open okOpenEnv, DeviceCall.start, DeviceCall.close]
          (Freenect2DeviceImpl.new (some kinect) (some 7))).2)
      = (runCalls [DeviceCall.open okOpenEnv, DeviceCall.start, DeviceCall.close]
          (Freenect2DeviceImpl.new (some kinect) (some 7))).2 ∧
    submittedAtDeallocate (withoutCompletions
        (runCalls [DeviceCall.open okOpenEnv, DeviceCall.start, DeviceCall.close]
          (Freenect2DeviceImpl.new (some kinect) (some 7))).2) Pools.init
      = [(Pool.Rgb, 20), (Pool.Ir, 60)] ∧
    submittedAtDeallocate (completionsDuringSleep 20 60
        (runCalls [DeviceCall.open okOpenEnv, DeviceCall.start, DeviceCall.close]
          (Freenect2DeviceImpl.new (some kinect) (some 7))).2) Pools.init
      = [(Pool.Rgb, 0), (Pool.Ir, 0)] := by
  refine ⟨?_, ?_, ?_⟩
  · decide
  · decide
  · set_option maxRecDepth 8000 in decide

/-! ### Bounds of the marker loop -/

/-- A buffer of 1, 2 or 3 bytes makes the marker loop read outside of it: the
loop is entered at offset 0 and reads `p[0]` to `p[3]`. -/
theorem markerWalk_short (buf : List Nat) (h1 : 0 < buf.length) (h3 : buf.length ≤ 3) :
    markerWalk (buf.length + 1) buf 0 = WalkResult.outOfBounds := by
  have hr : readByte buf (0 + 3) = none := by
    unfold readByte
    rw [List.getElem?_eq_none (by omega)]
    rfl
  unfold markerWalk
  rw [if_pos h1, hr]
  cases readByte buf 0 <;> cases readByte buf (0 + 1) <;> cases readByte buf (0 + 2) <;> rfl

/-- C21 (the code at failing inputs): with a decompressor and a listener, a packet
of one byte makes `process` read `p[1]`, `p[2]` and `p[3]` at the offsets 1, 2
and 3, outside the buffer, and so do packets of 2 and 3 bytes; a packet whose
last marker sits in the last two bytes makes it read past the end at that
position; a packet whose APPn segment declares more bytes than the buffer holds
makes the dump read past the end. The loop stays inside the buffer for the empty
packet and for a packet whose last segment ends exactly at the end of the
buffer. -/
theorem markerWalk_reads_outside :
    markerWalk 2 [0xFF] 0 = WalkResult.outOfBounds ∧
    readyProcessor.process ⟨0, false⟩ ⟨[0xFF]⟩ = none ∧
    markerWalk 3 [0xFF, 0xD8] 0 = WalkResult.outOfBounds ∧
    markerWalk 4 [0xFF, 0xD8, 0xFF] 0 = WalkResult.outOfBounds ∧
    markerWalk 5 [0xFF, 0xD8, 0xFF, 0xDA] 0 = WalkResult.outOfBounds ∧
    markerWalk 9 [0xFF, 0xD8, 0xFF, 0xE0, 0x00, 0x10, 0x4A, 0x46] 0 = WalkResult.outOfBounds ∧
    markerWalk 1 [] 0 = WalkResult.finished ∧
    markerWalk 9 [0xFF, 0xD8, 0xFF, 0xE0, 0x00, 0x04, 0x4A, 0x46] 0 = WalkResult.finished := by
  decide

/-! ### The index read by openDevice -/

theorem toSizeT_of_nonneg (idx : Int) (h0 : 0 ≤ idx) (h1 : idx < 18446744073709551616) :
    ((toSizeT idx : Nat) : Int) = idx := by
  unfold toSizeT
  rw [Int.emod_eq_of_lt h0 h1]
  exact Int.toNat_of_nonneg h0

/-- For an `idx` that is not negative the read of the candidate list is in range:
`openDevice(idx)` either returns null without reading, or reads at the index
`idx`, which is below the size of the list. -/
theorem openDeviceReadIndex_of_nonneg (idx : Int) (env : OpenDeviceEnv) (w : World)
    (h0 : 0 ≤ idx) (h1 : idx < 2147483648) :
    (Freenect2.openDeviceReadIndex idx env w = none ∧
      ∃ w1 t, Freenect2.openDevice idx env w = some (none, w1, t)) ∨
    (∃ i, Freenect2.openDeviceReadIndex idx env w = some i ∧ (i : Int) = idx ∧
      i < (w.impl_.getNumDevices env.bus).2.1.enumerated_devices_.length) := by
  unfold Freenect2.openDeviceReadIndex
  by_cases h : idx < (w.impl_.getNumDevices env.bus).1
  · right
    rw [if_pos h]
    have e := toSizeT_of_nonneg idx h0 (by omega)
    refine ⟨_, rfl, e, ?_⟩
    rw [getNumDevices_count] at h
    omega
  · left
    rw [if_neg h]
    refine ⟨rfl, _, _, openDevice_of_le idx env w ?_⟩
    rw [getNumDevices_count] at h
    omega

/-- When the index read is not below the size of the candidate list, the read is
outside the vector and `openDevice(idx)` has no defined behaviour. -/
theorem openDevice_of_read_outside (idx : Int) (env : OpenDeviceEnv) (w : World) (i : Nat)
    (h : Freenect2.openDeviceReadIndex idx env w = some i)
    (hi : (w.impl_.getNumDevices env.bus).2.1.enumerated_devices_.length ≤ i) :
    Freenect2.openDevice idx env w = none := by
  unfold Freenect2.openDeviceReadIndex at h
  by_cases hlt : idx < (w.impl_.getNumDevices env.bus).1
  · rw [if_pos hlt] at h
    have e : toSizeT idx = i := Option.some.inj h
    unfold Freenect2.openDevice
    simp only [hlt, if_true, e, List.getElem?_eq_none hi]
  · rw [if_neg hlt] at h
    cases h

/-- C22 (the code at the failing input): with one enumerated candidate,
`openDevice(-1)` passes the test `idx < num_devices` and reads the candidate list
at the index 2^64 - 1, which is not in `[0, 1)`; the call has no defined
behaviour. `openDevice(0)` reads at index 0 and `openDevice(1)` returns null
without reading. -/
theorem openDevice_negative_index :
    oneCandidate.impl_.enumerated_devices_.length = 1 ∧
    Freenect2.openDeviceReadIndex (-1) (busEnv [kinect] okOpenEnv) oneCandidate
      = some 18446744073709551615 ∧
    Freenect2.openDevice (-1) (busEnv [kinect] okOpenEnv) oneCandidate = none ∧
    Freenect2.openDeviceReadIndex 0 (busEnv [kinect] okOpenEnv) oneCandidate = some 0 ∧
    Freenect2.openDeviceReadIndex 1 (busEnv [kinect] okOpenEnv) oneCandidate = none := by
  decide

/-! ### The state of a returned device -/

theorem isSameUsbDevice_of_closed (d : Freenect2DeviceImpl) (u : UsbDevice)
    (h : d.state_ = State.Closed) : d.isSameUsbDevice u = false := by
  simp [Freenect2DeviceImpl.isSameUsbDevice, h]

theorem state_cases (d : Freenect2DeviceImpl) (h1 : d.state_ ≠ State.Created)
    (h2 : d.state_ ≠ State.Closed) : d.state_ = State.Open ∨ d.state_ = State.Streaming := by
  cases hs : d.state_ <;> simp_all

/-- When no registered device recognises the candidate read, `openDevice(idx)`
opens a USB handle and constructs a device at the next free address; a pointer
it returns is that address. -/
theorem openDevice_constructs (w : World) (hw : w.Inv) (idx : Int) (env : OpenDeviceEnv)
    (dev : UsbDevice) (hlt : idx < (w.impl_.getNumDevices env.bus).1)
    (hread : (w.impl_.getNumDevices env.bus).2.1.enumerated_devices_[toSizeT idx]? = some dev)
    (hnone : ∀ q ∈ w.impl_.devices_, ∀ dq, derefDevice w.heap q = some dq →
      dq.isSameUsbDevice dev = false) :
    ∃ (r : Option Nat) (w1 : World) (t : List SysEvent),
      Freenect2.openDevice idx env w = some (r, w1, t) ∧
      SysEvent.libusb_open dev ∈ t ∧ SysEvent.construct w.heap.length ∈ t ∧
      ∀ p, r = some p → p = w.heap.length := by
  cases hopen : ((Freenect2DeviceImpl.new (some dev) env.dev_handle).open env.open_env).1 with
  | false =>
    refine ⟨_, _, _, openDevice_new_fail w hw idx env dev hlt hread hnone hopen, ?_, ?_, ?_⟩
    · simp
    · simp
    · intro p hp
      cases hp
  | true =>
    have habs := tryGetDeviceLoop_absent w.heap dev w.impl_.devices_ hw.live hnone
    refine ⟨some w.heap.length,
      { impl_ := (w.impl_.getNumDevices env.bus).2.1.addDevice w.heap.length,
        heap := w.heap ++ [some ((Freenect2DeviceImpl.new (some dev) env.dev_handle).open
          env.open_env).2.1] },
      (w.impl_.getNumDevices env.bus).2.2
        ++ [SysEvent.libusb_open dev, SysEvent.construct w.heap.length]
        ++ (Freenect2DeviceImpl.ctorEvents
            ++ ((Freenect2DeviceImpl.new (some dev) env.dev_handle).open
                  env.open_env).2.2).map (SysEvent.device w.heap.length),
      ?_, ?_, ?_, ?_⟩
    · unfold Freenect2.openDevice
      simp only [hlt, if_true, hread, Freenect2Impl.tryGetDevice, getNumDevices_devices, habs,
        hopen]
    · simp
    · simp
    · intro p hp
      exact (Option.some.inj hp).symm

/-- C23: in every reachable state no registered device is in state `Created`; a
device that `openDevice(idx)` returns is, after the call, in state `Open` or
`Streaming`; a registered device that it returns was not `Closed` before the
call; and when every registered device is `Closed` or does not recognise the
candidate, `openDevice(idx)` constructs a new device, at a new address, and
returns nothing else. -/
theorem openDevice_returns_usable (w : World) (hw : Reachable w) (idx : Int)
    (env : OpenDeviceEnv) :
    (∀ p ∈ w.impl_.devices_, ∀ d, derefDevice w.heap p = some d →
      d.state_ ≠ State.Created) ∧
    (∀ p w1 t, Freenect2.openDevice idx env w = some (some p, w1, t) →
      ∃ d, derefDevice w1.heap p = some d ∧
        (d.state_ = State.Open ∨ d.state_ = State.Streaming)) ∧
    (∀ p w1 t d, Freenect2.openDevice idx env w = some (some p, w1, t) →
      derefDevice w.heap p = some d → d.state_ ≠ State.Closed) ∧
    (∀ dev, idx < (w.impl_.getNumDevices env.bus).1 →
      (w.impl_.getNumDevices env.bus).2.1.enumerated_devices_[toSizeT idx]? = some dev →
      (∀ q ∈ w.impl_.devices_, ∀ dq, derefDevice w.heap q = some dq →
        dq.state_ = State.Closed ∨ dq.isSameUsbDevice dev = false) →
      ∃ (r : Option Nat) (w1 : World) (t : List SysEvent),
        Freenect2.openDevice idx env w = some (r, w1, t) ∧
        SysEvent.construct w.heap.length ∈ t ∧ w.heap.length ∉ w.impl_.devices_ ∧
        ∀ p, r = some p → p = w.heap.length) := by
  have hinv := reachable_inv w hw
  refine ⟨fun p _ d hd => hinv.opened p d hd, ?_, ?_, ?_⟩
  · intro p w1 t h
    have hinv1 := inv_openDevice idx env w w1 (some p) t h hinv
    obtain ⟨dev, d, -, -, -, -, hd, hs⟩ := openDevice_some w idx env p w1 t h
    exact ⟨d, hd, state_cases d (hinv1.opened p d hd) ((isSameUsbDevice_iff d dev).1 hs).1⟩
  · intro p w1 t d h hd
    obtain ⟨dev, d1, -, -, -, -, hd1, hs⟩ := openDevice_some w idx env p w1 t h
    rcases openDevice_cases idx env w w1 (some p) t h hinv with ⟨-, hheap, -⟩ |
      ⟨-, -, hp, -, -, -, -, -⟩
    · rw [hheap, hd] at hd1
      have e : d = d1 := Option.some.inj hd1
      rw [e]
      exact ((isSameUsbDevice_iff d1 dev).1 hs).1
    · have e : p = w.heap.length := Option.some.inj hp
      rw [e, derefDevice_length] at hd
      cases hd
  · intro dev hlt hread hcl
    obtain ⟨r, w1, t, h1, -, h2, h3⟩ := openDevice_constructs w hinv idx env dev hlt hread
      (fun q hq dq hdq => by
        rcases hcl q hq dq hdq with hc | hc
        · exact isSameUsbDevice_of_closed dq dev hc
        · exact hc)
    exact ⟨r, w1, t, h1, h2, length_not_mem_devices w hinv, h3⟩

theorem openDevice_returns_usable_witness :
    (∃ d, derefDevice
        (World.runD [Call.openDevice 0 (busEnv [kinect] okOpenEnv), Call.close 0,
          Call.openDevice 0 (busEnv [kinect] okOpenEnv)] World.init).heap 1 = some d ∧
      (d.state_ = State.Open ∨ d.state_ = State.Streaming)) ∧
    (derefDevice
      (World.runD [Call.openDevice 0 (busEnv [kinect] okOpenEnv), Call.close 0,
        Call.openDevice 0 (busEnv [kinect] okOpenEnv)] World.init).heap 0).map
      (fun d => d.state_) = some State.Closed :=
  ⟨(openDevice_returns_usable
      (World.runD [Call.openDevice 0 (busEnv [kinect] okOpenEnv), Call.close 0] World.init)
      (reachable_runD _ _ Reachable.init) 0 (busEnv [kinect] okOpenEnv)).2.1 1
      (World.runD [Call.openDevice 0 (busEnv [kinect] okOpenEnv), Call.close 0,
        Call.openDevice 0 (busEnv [kinect] okOpenEnv)] World.init)
      ((Freenect2.openDevice 0 (busEnv [kinect] okOpenEnv)
        (World.runD [Call.openDevice 0 (busEnv [kinect] okOpenEnv), Call.close 0]
          World.init)).elim [] (fun r => r.2.2))
      (by decide),
   by decide⟩

end libfreenect2
